import Mathlib

/-!
Verification development for the `gettimings` micro-benchmark harness and its
`fork_run` process-spawning helper.

The C sources are shallowly embedded:
* machine `uint64_t` arithmetic is `Nat` with explicit reduction modulo `2 ^ 64`;
* the real-valued (`double`) means are modelled as exact rationals (`Rat`);
  claims about them are stated up to that idealisation, which is what the
  specification itself allows ("within floating-point rounding");
* calls that may make the process terminate (`exit`) are modelled with
  `Except PExit`, where `PExit` records the exit status and the diagnostic
  written to the error stream;
* the operating system (clock, fork, waitpid, mkdtemp, rmdir, system) is
  modelled by explicit oracles: a clock stream, per-call failure switches, a
  zombie table of terminated-but-unreaped children, and a fresh-pid counter.
-/

namespace GT

/-- Size of the `uint64_t` value space. -/
def U64 : Nat := 2 ^ 64

/-- Addition of `uint64_t` values (`total_ns += ...`). -/
def u64_add (a b : Nat) : Nat := (a + b) % U64

/-- Subtraction of `uint64_t` values (`t1 - t0` with wrap-around). -/
def u64_sub (a b : Nat) : Nat := (a % U64 + (U64 - b % U64)) % U64

/-- A fatal process termination: exit status plus the diagnostic reported to
the error stream (`perror` / `fprintf(stderr, ...)`). -/
structure PExit where
  code : Nat
  msg : String
deriving DecidableEq, Repr

/-- Decidable equality of `Except` results, for evaluating the embedding on
concrete inputs. -/
instance exceptDecEq {ε α : Type} [DecidableEq ε] [DecidableEq α] :
    DecidableEq (Except ε α) := fun a b =>
  match a, b with
  | Except.error e1, Except.error e2 =>
    if h : e1 = e2 then isTrue (by rw [h])
    else isFalse (by intro hc; cases hc; exact h rfl)
  | Except.error _, Except.ok _ => isFalse (by intro hc; exact Except.noConfusion hc)
  | Except.ok _, Except.error _ => isFalse (by intro hc; exact Except.noConfusion hc)
  | Except.ok a1, Except.ok a2 =>
    if h : a1 = a2 then isTrue (by rw [h])
    else isFalse (by intro hc; cases hc; exact h rfl)

/-- Events emitted by the measurement harness, used to state ordering
properties of the warm-up, timed and overhead phases. -/
inductive Ev where
  | setupEv : Ev
  | actionEv : Ev
  | teardownEv : Ev
  | clockEv : Nat → Ev
  | emptyEv : Ev
deriving DecidableEq, Repr

/-- A scenario callback (`action_fn`): transforms the scenario state or makes
the process terminate. -/
abbrev Cb (σ : Type) := σ → Except PExit σ

/-- Run an optional callback, as `if (setup_each) setup_each();` does. -/
def optRun {σ : Type} (cb : Option (Cb σ)) (s : σ) : Except PExit σ :=
  match cb with
  | none => Except.ok s
  | some f => f s

/-- Event marker for an optional callback: present only when the callback is. -/
def optMark {σ : Type} (cb : Option (Cb σ)) (e : Ev) : List Ev :=
  match cb with
  | none => []
  | some _ => [e]

/-- State snapshot for an optional callback invocation. -/
def optSnap {σ : Type} (cb : Option (Cb σ)) (s : σ) : List σ :=
  match cb with
  | none => []
  | some _ => [s]

/-- Embedding of `nsecs_now`: the `k`-th reading of the monotonic clock.
`gettime k = none` models `clock_gettime` returning nonzero, upon which the
program reports the error and exits with status 1.  The returned nanosecond
count is a `uint64_t` value. -/
def nsecs_now (gettime : Nat → Option Nat) (k : Nat) : Except PExit Nat :=
  match gettime k with
  | none => Except.error ⟨1, "clock_gettime"⟩
  | some t => Except.ok (t % U64)

/-- Result of one loop phase of `measure`: final state, accumulator value,
emitted events, and the state snapshots taken after every callback call. -/
structure LoopOut (σ : Type) where
  st : σ
  acc : Nat
  evs : List Ev
  snaps : List σ
deriving DecidableEq

/-- The warm-up loop of `measure`: `warm` full setup/action/teardown cycles,
no clock reads, no accumulation. -/
def warmLoop {σ : Type} (su : Option (Cb σ)) (act : Cb σ) (td : Option (Cb σ)) :
    Nat → σ → Except PExit (LoopOut σ)
  | 0, s => Except.ok ⟨s, 0, [], []⟩
  | n + 1, s =>
    match optRun su s with
    | Except.error e => Except.error e
    | Except.ok s1 =>
      match act s1 with
      | Except.error e => Except.error e
      | Except.ok s2 =>
        match optRun td s2 with
        | Except.error e => Except.error e
        | Except.ok s3 =>
          match warmLoop su act td n s3 with
          | Except.error e => Except.error e
          | Except.ok rest =>
            Except.ok ⟨rest.st, 0,
              (optMark su Ev.setupEv ++ [Ev.actionEv] ++ optMark td Ev.teardownEv)
                ++ rest.evs,
              (optSnap su s1 ++ [s2] ++ optSnap td s3) ++ rest.snaps⟩

/-- The timed loop of `measure`: per cycle, setup, start reading (clock index
`k`), action, end reading (clock index `k+1`), teardown, then
`total_ns += (t1 - t0)` in `uint64_t` arithmetic. -/
def timedLoop {σ : Type} (su : Option (Cb σ)) (act : Cb σ) (td : Option (Cb σ))
    (gettime : Nat → Option Nat) :
    Nat → Nat → Nat → σ → Except PExit (LoopOut σ)
  | 0, _, acc, s => Except.ok ⟨s, acc, [], []⟩
  | n + 1, k, acc, s =>
    match optRun su s with
    | Except.error e => Except.error e
    | Except.ok s1 =>
      match nsecs_now gettime k with
      | Except.error e => Except.error e
      | Except.ok t0 =>
        match act s1 with
        | Except.error e => Except.error e
        | Except.ok s2 =>
          match nsecs_now gettime (k + 1) with
          | Except.error e => Except.error e
          | Except.ok t1 =>
            match optRun td s2 with
            | Except.error e => Except.error e
            | Except.ok s3 =>
              match timedLoop su act td gettime n (k + 2)
                  (u64_add acc (u64_sub t1 t0)) s3 with
              | Except.error e => Except.error e
              | Except.ok rest =>
                Except.ok ⟨rest.st, rest.acc,
                  (optMark su Ev.setupEv
                    ++ [Ev.clockEv t0, Ev.actionEv, Ev.clockEv t1]
                    ++ optMark td Ev.teardownEv) ++ rest.evs,
                  (optSnap su s1 ++ [s2] ++ optSnap td s3) ++ rest.snaps⟩

/-- The overhead-calibration loop of `measure`: identical to the timed loop
but with an empty critical section between the two clock readings instead of
the action. -/
def overheadLoop {σ : Type} (su : Option (Cb σ)) (td : Option (Cb σ))
    (gettime : Nat → Option Nat) :
    Nat → Nat → Nat → σ → Except PExit (LoopOut σ)
  | 0, _, acc, s => Except.ok ⟨s, acc, [], []⟩
  | n + 1, k, acc, s =>
    match optRun su s with
    | Except.error e => Except.error e
    | Except.ok s1 =>
      match nsecs_now gettime k with
      | Except.error e => Except.error e
      | Except.ok t0 =>
        match nsecs_now gettime (k + 1) with
        | Except.error e => Except.error e
        | Except.ok t1 =>
          match optRun td s1 with
          | Except.error e => Except.error e
          | Except.ok s3 =>
            match overheadLoop su td gettime n (k + 2)
                (u64_add acc (u64_sub t1 t0)) s3 with
            | Except.error e => Except.error e
            | Except.ok rest =>
              Except.ok ⟨rest.st, rest.acc,
                (optMark su Ev.setupEv
                  ++ [Ev.clockEv t0, Ev.emptyEv, Ev.clockEv t1]
                  ++ optMark td Ev.teardownEv) ++ rest.evs,
                (optSnap su s1 ++ optSnap td s3) ++ rest.snaps⟩

/-- The printed report block: scenario label, iteration count, mean, and the
two extra lines present exactly when overhead subtraction is on. -/
structure Report where
  label : String
  itersField : Nat
  mean_ns_total : Rat
  overheadLines : Option (Rat × Rat)
deriving DecidableEq, Repr

/-- Complete result of a successful `measure` call. -/
structure MOut (σ : Type) where
  st : σ
  report : Report
  warmEvs : List Ev
  timedEvs : List Ev
  ovEvs : List Ev
  snaps : List σ
deriving DecidableEq

/-- Embedding of `measure` from `gettimings.c`.  The phases mirror the C
control flow: zero-iteration guard (exit status 2), warm-up of
`iters / 10 + 1` cycles, timed phase of `iters` cycles, optional overhead
phase of `iters` cycles, and only then the printed report. -/
def measure {σ : Type} (label : String) (su : Option (Cb σ)) (act : Cb σ)
    (td : Option (Cb σ)) (gettime : Nat → Option Nat) (iters : Nat)
    (subtract_overhead : Bool) (s0 : σ) : Except PExit (MOut σ) :=
  if iters = 0 then Except.error ⟨2, "iters must be > 0"⟩
  else
    match warmLoop su act td (iters / 10 + 1) s0 with
    | Except.error e => Except.error e
    | Except.ok w =>
      match timedLoop su act td gettime iters 0 0 w.st with
      | Except.error e => Except.error e
      | Except.ok t =>
        let mean_ns : Rat := (t.acc : Rat) / (iters : Rat)
        if subtract_overhead then
          match overheadLoop su td gettime iters (2 * iters) 0 t.st with
          | Except.error e => Except.error e
          | Except.ok o =>
            let overhead_ns : Rat := (o.acc : Rat) / (iters : Rat)
            Except.ok ⟨o.st,
              ⟨label, iters, mean_ns, some (overhead_ns, mean_ns - overhead_ns)⟩,
              w.evs, t.evs, o.evs, w.snaps ++ t.snaps ++ o.snaps⟩
        else
          Except.ok ⟨t.st, ⟨label, iters, mean_ns, none⟩,
            w.evs, t.evs, [], w.snaps ++ t.snaps⟩

/-- The Linux `errno` value for "no child processes". -/
def ECHILD : Nat := 10

/-- State of scenario 4 (`fork()` return in parent): the `last_child` pid
register, the `sink_u64` accumulator, and the OS side of the picture — the
multiset of terminated-but-unreaped children (`zombies`), the next pid the
kernel will hand out, and how many forks have happened. -/
structure S4 where
  last_child : Int
  sink_u64 : Nat
  zombies : List Int
  nextPid : Int
  forkCount : Nat
deriving DecidableEq, Repr

/-- OS oracle for scenario 4: whether the `n`-th `fork` call fails. -/
structure OS4 where
  forkFail : Nat → Bool

/-- Embedding of `act_fork_parent_return`: fork (fatal on failure), the child
exits immediately (so it joins the zombie table), the parent records the pid
in `last_child` and folds it into the sink. -/
def act_fork_parent_return (os : OS4) : Cb S4 := fun s =>
  if os.forkFail s.forkCount then Except.error ⟨1, "fork"⟩
  else
    Except.ok { s with
      forkCount := s.forkCount + 1
      nextPid := s.nextPid + 1
      zombies := s.zombies ++ [s.nextPid]
      last_child := s.nextPid
      sink_u64 := Nat.xor s.sink_u64 (s.nextPid.toNat % U64) }

/-- Embedding of `teardown_wait_for_last_child`: if `last_child > 0`, reap it
with `waitpid` — which succeeds exactly when that pid is an unreaped child —
and clear the register; a `waitpid` failure is fatal with status 1. -/
def teardown_wait_for_last_child : Cb S4 := fun s =>
  if 0 < s.last_child then
    if s.last_child ∈ s.zombies then
      Except.ok { s with zombies := s.zombies.erase s.last_child, last_child := -1 }
    else Except.error ⟨1, "waitpid"⟩
  else Except.ok s

/-- State of scenario 5 (`waitpid` on an already-terminated child): the
`ready_zombie` pid register, the sink, the OS zombie table and pid counter,
call counters for the oracles, and a log of the `nanosleep` durations
performed by the setup. -/
structure S5 where
  ready_zombie : Int
  sink_u64 : Nat
  zombies : List Int
  nextPid : Int
  forkCount : Nat
  waitCount : Nat
  sleeps_ns : List Nat
deriving DecidableEq, Repr

/-- OS oracle for scenario 5: per-call `fork` failure, and an optional forced
`errno` for the `n`-th `waitpid` call (modelling spurious kernel failures
beyond the natural "no such child" case). -/
structure OS5 where
  forkFail : Nat → Bool
  waitErr : Nat → Option Nat

/-- Model of `waitpid(pid, &st, 0)` for a specific pid as used by scenario 5:
returns the result value, the `errno`, and the new state.  A forced oracle
error yields `-1` with that `errno`; otherwise the call reaps the pid if it
is an unreaped terminated child and fails with `ECHILD` if it is not. -/
def waitpid5 (os : OS5) (pid : Int) (s : S5) : Int × Nat × S5 :=
  let s1 := { s with waitCount := s.waitCount + 1 }
  match os.waitErr s.waitCount with
  | some e => (-1, e, s1)
  | none =>
    if pid ∈ s.zombies then (pid, 0, { s1 with zombies := s1.zombies.erase pid })
    else (-1, ECHILD, s1)

/-- Embedding of `setup_waitpid_ready`: fork a child that exits immediately
(fatal on fork failure), sleep a fixed 2 ms, then record the child's pid in
`ready_zombie`. -/
def setup_waitpid_ready (os : OS5) : Cb S5 := fun s =>
  if os.forkFail s.forkCount then Except.error ⟨1, "fork"⟩
  else
    Except.ok { s with
      forkCount := s.forkCount + 1
      nextPid := s.nextPid + 1
      zombies := s.zombies ++ [s.nextPid]
      sleeps_ns := s.sleeps_ns ++ [2 * 1000 * 1000]
      ready_zombie := s.nextPid }

/-- Embedding of `act_waitpid_ready`: reap `ready_zombie`; if the value
returned by `waitpid` differs from `ready_zombie` the process reports the
error and exits with status 1.  The register is not cleared. -/
def act_waitpid_ready (os : OS5) : Cb S5 := fun s =>
  let r := waitpid5 os s.ready_zombie s
  if r.1 ≠ s.ready_zombie then Except.error ⟨1, "waitpid"⟩
  else Except.ok { r.2.2 with sink_u64 := Nat.xor s.sink_u64 (r.1.toNat % U64) }

/-- Embedding of `teardown_wait_ready`: defensive reap of `ready_zombie` when
it is positive; a `waitpid` failure with `errno` other than `ECHILD` is fatal,
an `ECHILD` failure is tolerated; the register is then cleared. -/
def teardown_wait_ready (os : OS5) : Cb S5 := fun s =>
  if 0 < s.ready_zombie then
    let r := waitpid5 os s.ready_zombie s
    if r.1 < 0 ∧ r.2.1 ≠ ECHILD then Except.error ⟨1, "waitpid"⟩
    else Except.ok { r.2.2 with ready_zombie := -1 }
  else Except.ok s

/-- State of scenario 6 (fork, child exits, immediate `waitpid`). -/
structure S6 where
  sink_u64 : Nat
  zombies : List Int
  nextPid : Int
  forkCount : Nat
  waitCount : Nat
deriving DecidableEq, Repr

/-- OS oracle for scenario 6: per-call `fork` and `waitpid` failure. -/
structure OS6 where
  forkFail : Nat → Bool
  waitFail : Nat → Bool

/-- Embedding of `act_fork_child_exit_wait`: fork (fatal on failure), the
child exits with status 0, the parent immediately reaps it (fatal on
failure) and folds the exit status into the sink. -/
def act_fork_child_exit_wait (os : OS6) : Cb S6 := fun s =>
  if os.forkFail s.forkCount then Except.error ⟨1, "fork"⟩
  else
    let p := s.nextPid
    let s1 : S6 := { s with
      forkCount := s.forkCount + 1
      nextPid := s.nextPid + 1
      zombies := s.zombies ++ [p] }
    if os.waitFail s1.waitCount then Except.error ⟨1, "waitpid"⟩
    else if p ∈ s1.zombies then
      Except.ok { s1 with
        waitCount := s1.waitCount + 1
        zombies := s1.zombies.erase p
        sink_u64 := Nat.xor s1.sink_u64 0 }
    else Except.error ⟨1, "waitpid"⟩

/-- State of scenario 7 (`system("/bin/true")`): number of subshell calls. -/
structure S7 where
  sysCount : Nat
deriving DecidableEq, Repr

/-- OS oracle for scenario 7: whether the `n`-th `system` call returns -1. -/
structure OS7 where
  sysFail : Nat → Bool

/-- Embedding of `act_system_true`: invoke the subshell; a -1 return is
fatal with status 1, any other return is ignored. -/
def act_system_true (os : OS7) : Cb S7 := fun s =>
  if os.sysFail s.sysCount then Except.error ⟨1, "system"⟩
  else Except.ok { s with sysCount := s.sysCount + 1 }

/-- The mutable path template of scenario 8. -/
def dir_template : String := "/tmp/gtXXXXXX"

/-- State of scenario 8 (mkdir + rmdir): the `workdir` buffer, a counter of
`mkdtemp` calls (used to generate distinct names), and the set of temporary
directories currently existing. -/
structure S8 where
  workdir : String
  mkCount : Nat
  liveDirs : List Nat
deriving DecidableEq, Repr

/-- OS oracle for scenario 8: per-call `mkdtemp` and `rmdir` failure. -/
structure OS8 where
  mkFail : Nat → Bool
  rmFail : Nat → Bool

/-- Embedding of `setup_mkdir_rmdir`: copy the template into `workdir`. -/
def setup_mkdir_rmdir : Cb S8 := fun s =>
  Except.ok { s with workdir := dir_template }

/-- Embedding of `act_mkdir_rmdir`: create a uniquely named temporary
directory from the template (fatal on failure), then remove it (fatal on
failure).  Directory identities are modelled by the `mkdtemp` call index. -/
def act_mkdir_rmdir (os : OS8) : Cb S8 := fun s =>
  if os.mkFail s.mkCount then Except.error ⟨1, "mkdtemp"⟩
  else
    let d := s.mkCount
    let s1 : S8 := { s with mkCount := s.mkCount + 1, liveDirs := s.liveDirs ++ [d] }
    if os.rmFail s.mkCount then Except.error ⟨1, "rmdir"⟩
    else Except.ok { s1 with liveDirs := s1.liveDirs.erase d }

/-- C whitespace as skipped by `atoi` (`isspace`). -/
def isSpaceC (c : Char) : Bool :=
  c == ' ' || c == '\t' || c == '\n' || c == '\x0b' || c == '\x0c' || c == '\r'

/-- Greedy decimal digit scan of `atoi`: consume digits, stop at the first
non-digit. -/
def atoiLoop : List Char → Nat → Nat
  | [], acc => acc
  | c :: cs, acc =>
    if c.isDigit then atoiLoop cs (acc * 10 + (c.toNat - 48)) else acc

/-- Drop leading C whitespace. -/
def dropSpaces : List Char → List Char
  | [] => []
  | c :: cs => if isSpaceC c then dropSpaces cs else c :: cs

/-- Mathematical model of C `atoi`: skip leading whitespace, read an optional
sign, then the longest run of decimal digits; everything after it is ignored
and an empty digit run yields 0.  (Overflow, which is undefined behaviour for
`atoi`, is not modelled.) -/
def atoi (s : String) : Int :=
  match dropSpaces s.data with
  | '-' :: cs => - (atoiLoop cs 0 : Int)
  | '+' :: cs => (atoiLoop cs 0 : Int)
  | cs => (atoiLoop cs 0 : Int)

/-- A scenario descriptor from the dispatch switch in `main`: index, label,
iteration count, and subtract-overhead flag. -/
structure Scen where
  idx : Nat
  label : String
  iters : Nat
  subtract_overhead : Bool
deriving DecidableEq, Repr

/-- The scenario table of `main`'s `switch` statement. -/
def scenarioOf (which : Int) : Option Scen :=
  if which = 1 then some ⟨1, "scenario_1_empty_function_call", 200000, true⟩
  else if which = 2 then some ⟨2, "scenario_2_drand48", 200000, true⟩
  else if which = 3 then some ⟨3, "scenario_3_getppid", 200000, true⟩
  else if which = 4 then some ⟨4, "scenario_4_fork_parent_return", 8000, true⟩
  else if which = 5 then some ⟨5, "scenario_5_waitpid_already_terminated", 2000, true⟩
  else if which = 6 then some ⟨6, "scenario_6_fork_child_exit_waitpid", 4000, false⟩
  else if which = 7 then some ⟨7, "scenario_7_system_true", 2500, false⟩
  else if which = 8 then some ⟨8, "scenario_8_mkdir_rmdir", 20000, true⟩
  else none

/-- Total version of the scenario table, for stating the dispatch theorem
without an existential; only indices 1 through 8 are meaningful. -/
def scenAt (n : Nat) : Scen :=
  match scenarioOf (n : Int) with
  | some sc => sc
  | none => ⟨0, "", 0, false⟩

/-- The usage failure of `main`: usage text on the error stream, status 2. -/
def usageExit : PExit := ⟨2, "Usage: <scenario 1..8>"⟩

/-- Embedding of the argument handling and dispatch of `main`: `args` is the
argument vector after the program name.  Anything other than exactly one
argument whose `atoi` value hits the switch yields the usage failure;
otherwise the selected scenario descriptor is returned (the process then runs
that single scenario and exits 0 on successful completion). -/
def mainSelect (args : List String) : Except PExit Scen :=
  match args with
  | [a] =>
    match scenarioOf (atoi a) with
    | some sc => Except.ok sc
    | none => Except.error usageExit
  | _ => Except.error usageExit

/-- Claim-side reading of "the argument string is an integer": an optional
sign followed by a nonempty run of digits and nothing else.  Used to compare
the specification's wording with the `atoi`-based behaviour of the code. -/
def isIntString (s : String) : Bool :=
  match s.data with
  | [] => false
  | '-' :: cs => !cs.isEmpty && cs.all Char.isDigit
  | '+' :: cs => !cs.isEmpty && cs.all Char.isDigit
  | cs => cs.all Char.isDigit

/-- Claim-side warm-up count: the specification prescribes
`max(iterations/10, 1)` warm-up cycles. -/
def spec_warm (iters : Nat) : Nat := max (iters / 10) 1

/-- OS oracle for the `fork_run.c` helper: per-call `open` failure, per-call
`fork` failure, and whether the `exec` in a child fails. -/
structure FR_OS where
  openFail : Nat → Bool
  forkFail : Nat → Bool
  execFail : Bool

/-- Observable outcome of `writeoutput`: which descriptors were opened,
whether a child was forked and waited for, which redirections the child got,
the child's exit status when the `exec` failed, and whether the calling
process was fatally terminated. -/
structure WriteOut where
  out_opened : Bool
  err_opened : Bool
  forked : Bool
  waited : Bool
  child_redirected_out : Bool
  child_redirected_err : Bool
  child_exec_status : Option Nat
  fatal : Option PExit
deriving DecidableEq, Repr

/-- Embedding of `writeoutput` from `fork_run.c`: open the two output files
(failures are not checked — a negative descriptor merely skips the
redirection), fork, and in the parent wait for the child only when the fork
succeeded.  No failure path terminates the caller. -/
def writeoutput (os : FR_OS) (_command _out_path _err_path : String) : WriteOut :=
  let outOk := os.openFail 0 = false
  let errOk := os.openFail 1 = false
  if os.forkFail 0 then
    { out_opened := outOk
      err_opened := errOk
      forked := false
      waited := false
      child_redirected_out := false
      child_redirected_err := false
      child_exec_status := none
      fatal := none }
  else
    { out_opened := outOk
      err_opened := errOk
      forked := true
      waited := true
      child_redirected_out := outOk
      child_redirected_err := errOk
      child_exec_status := if os.execFail then some 127 else none
      fatal := none }

/-- The fork loop of `parallelwriteoutput`: for the `i`-th child, store the
fork result in `pids[i]` — the fresh pid `i + 1` on success, `-1` on
failure.  Structural recursion on the number of children left to spawn. -/
def pwo_forks (os : FR_OS) : Nat → Nat → List Int
  | 0, _ => []
  | n + 1, i => (if os.forkFail i then (-1 : Int) else (i + 1 : Int)) :: pwo_forks os n (i + 1)

/-- Observable outcome of `parallelwriteoutput`: whether the shared output
file was opened, the recorded `pids` array, the pids the parent waited for,
and whether the calling process was fatally terminated. -/
structure ParOut where
  out_opened : Bool
  pids : List Int
  waitedPids : List Int
  fatal : Option PExit
deriving DecidableEq, Repr

/-- Embedding of `parallelwriteoutput` from `fork_run.c`: open the shared
output file (failure unchecked), fork `count` children recording each result,
then wait exactly for the entries of `pids` that are positive.  No failure
path terminates the caller; a child whose `exec` fails exits with 127 on its
own. -/
def parallelwriteoutput (os : FR_OS) (count : Nat) : ParOut :=
  let pids := pwo_forks os count 0
  { out_opened := os.openFail 0 = false
    pids := pids
    waitedPids := pids.filter (fun p => 0 < p)
    fatal := none }

/-- Recognizer for non-clock events, used to state that a phase performs no
time reading. -/
def ev_not_clock : Ev → Bool
  | Ev.clockEv _ => false
  | _ => true

/-- Clean inter-cycle state of scenario 4: cleared pid register, no unreaped
child, positive upcoming pids. -/
def Inv4 (s : S4) : Prop := s.last_child = -1 ∧ s.zombies = [] ∧ 0 < s.nextPid

/-- Clean inter-cycle state of scenario 5. -/
def Inv5 (s : S5) : Prop := s.zombies = [] ∧ 0 < s.nextPid

/-- Clean inter-cycle state of scenario 6. -/
def Inv6 (s : S6) : Prop := s.zombies = [] ∧ 0 < s.nextPid

/-- Bounded-zombie check for scenario 4 states. -/
def zleB4 (s : S4) : Bool := decide (s.zombies.length ≤ 1)

/-- Bounded-zombie check for scenario 5 states. -/
def zleB5 (s : S5) : Bool := decide (s.zombies.length ≤ 1)

/-- Bounded-zombie check for scenario 6 states. -/
def zleB6 (s : S6) : Bool := decide (s.zombies.length ≤ 1)

/-- The per-cycle timing samples of a timed (or overhead) phase that starts
at clock index `k` and runs `n` cycles over the clock stream `gt`: the
`uint64_t` differences between the end and start readings of each cycle. -/
def clockDeltas (gt : Nat → Nat) (k n : Nat) : List Nat :=
  (List.range n).map (fun i => u64_sub (gt (k + 2 * i + 1) % U64) (gt (k + 2 * i) % U64))

theorem warmLoop_ok_shape {σ : Type} (su : Option (Cb σ)) (act : Cb σ)
    (td : Option (Cb σ)) :
    ∀ (n : Nat) (s : σ) (out : LoopOut σ), warmLoop su act td n s = Except.ok out →
      out.acc = 0 ∧
      out.evs = List.flatten (List.replicate n
        (optMark su Ev.setupEv ++ [Ev.actionEv] ++ optMark td Ev.teardownEv)) := by
  intro n
  induction n with
  | zero =>
    intro s out h
    simp only [warmLoop] at h
    cases h
    simp
  | succ n ih =>
    intro s out h
    simp only [warmLoop] at h
    cases h1 : optRun su s with
    | error e => simp only [h1] at h; exact Except.noConfusion h
    | ok s1 =>
      simp only [h1] at h
      cases h2 : act s1 with
      | error e => simp only [h2] at h; exact Except.noConfusion h
      | ok s2 =>
        simp only [h2] at h
        cases h3 : optRun td s2 with
        | error e => simp only [h3] at h; exact Except.noConfusion h
        | ok s3 =>
          simp only [h3] at h
          cases h4 : warmLoop su act td n s3 with
          | error e => simp only [h4] at h; exact Except.noConfusion h
          | ok rest =>
            simp only [h4] at h
            cases h
            obtain ⟨ha, he⟩ := ih s3 rest h4
            refine ⟨rfl, ?_⟩
            simp [List.replicate_succ, he]

theorem U64_pos : 0 < U64 := by
  unfold U64
  positivity

theorem clockDeltas_succ (gt : Nat → Nat) (k n : Nat) :
    clockDeltas gt k (n + 1) =
      u64_sub (gt (k + 1) % U64) (gt k % U64) :: clockDeltas gt (k + 2) n := by
  unfold clockDeltas
  rw [List.range_succ_eq_map]
  have harith : ∀ i : Nat, k + 2 * (i + 1) = k + 2 + 2 * i := by intro i; ring
  simp [List.map_map, Function.comp_def, harith]

theorem timedLoop_ok_shape {σ : Type} (su : Option (Cb σ)) (act : Cb σ)
    (td : Option (Cb σ)) (gt : Nat → Nat) :
    ∀ (n k acc : Nat) (s : σ) (out : LoopOut σ), acc < U64 →
      timedLoop su act td (fun j => some (gt j)) n k acc s = Except.ok out →
      out.acc = (acc + (clockDeltas gt k n).sum) % U64 ∧
      out.evs = ((List.range n).map (fun i =>
        optMark su Ev.setupEv
          ++ [Ev.clockEv (gt (k + 2 * i) % U64), Ev.actionEv,
              Ev.clockEv (gt (k + 2 * i + 1) % U64)]
          ++ optMark td Ev.teardownEv)).flatten := by
  intro n
  induction n with
  | zero =>
    intro k acc s out hacc h
    simp only [timedLoop] at h
    cases h
    simp [clockDeltas, Nat.mod_eq_of_lt hacc]
  | succ n ih =>
    intro k acc s out hacc h
    simp only [timedLoop, nsecs_now] at h
    cases h1 : optRun su s with
    | error e => simp only [h1] at h; exact Except.noConfusion h
    | ok s1 =>
      simp only [h1] at h
      cases h2 : act s1 with
      | error e => simp only [h2] at h; exact Except.noConfusion h
      | ok s2 =>
        simp only [h2] at h
        cases h3 : optRun td s2 with
        | error e => simp only [h3] at h; exact Except.noConfusion h
        | ok s3 =>
          simp only [h3] at h
          cases h4 : timedLoop su act td (fun j => some (gt j)) n (k + 2)
              (u64_add acc (u64_sub (gt (k + 1) % U64) (gt k % U64))) s3 with
          | error e => simp only [h4] at h; exact Except.noConfusion h
          | ok rest =>
            simp only [h4] at h
            cases h
            have hacc2 : u64_add acc (u64_sub (gt (k + 1) % U64) (gt k % U64)) < U64 := by
              unfold u64_add
              exact Nat.mod_lt _ U64_pos
            obtain ⟨ha, he⟩ := ih (k + 2) _ s3 rest hacc2 h4
            constructor
            · rw [ha, clockDeltas_succ]
              simp only [List.sum_cons, u64_add]
              rw [Nat.mod_add_mod]
              ring_nf
            · rw [List.range_succ_eq_map]
              have harith : ∀ i : Nat, k + 2 * (i + 1) = k + 2 + 2 * i := by intro i; ring
              simp [List.map_map, Function.comp_def, harith, he]

theorem overheadLoop_ok_shape {σ : Type} (su : Option (Cb σ))
    (td : Option (Cb σ)) (gt : Nat → Nat) :
    ∀ (n k acc : Nat) (s : σ) (out : LoopOut σ), acc < U64 →
      overheadLoop su td (fun j => some (gt j)) n k acc s = Except.ok out →
      out.acc = (acc + (clockDeltas gt k n).sum) % U64 ∧
      out.evs = ((List.range n).map (fun i =>
        optMark su Ev.setupEv
          ++ [Ev.clockEv (gt (k + 2 * i) % U64), Ev.emptyEv,
              Ev.clockEv (gt (k + 2 * i + 1) % U64)]
          ++ optMark td Ev.teardownEv)).flatten := by
  intro n
  induction n with
  | zero =>
    intro k acc s out hacc h
    simp only [overheadLoop] at h
    cases h
    simp [clockDeltas, Nat.mod_eq_of_lt hacc]
  | succ n ih =>
    intro k acc s out hacc h
    simp only [overheadLoop, nsecs_now] at h
    cases h1 : optRun su s with
    | error e => simp only [h1] at h; exact Except.noConfusion h
    | ok s1 =>
      simp only [h1] at h
      cases h3 : optRun td s1 with
      | error e => simp only [h3] at h; exact Except.noConfusion h
      | ok s3 =>
        simp only [h3] at h
        cases h4 : overheadLoop su td (fun j => some (gt j)) n (k + 2)
            (u64_add acc (u64_sub (gt (k + 1) % U64) (gt k % U64))) s3 with
        | error e => simp only [h4] at h; exact Except.noConfusion h
        | ok rest =>
          simp only [h4] at h
          cases h
          have hacc2 : u64_add acc (u64_sub (gt (k + 1) % U64) (gt k % U64)) < U64 := by
            unfold u64_add
            exact Nat.mod_lt _ U64_pos
          obtain ⟨ha, he⟩ := ih (k + 2) _ s3 rest hacc2 h4
          constructor
          · rw [ha, clockDeltas_succ]
            simp only [List.sum_cons, u64_add]
            rw [Nat.mod_add_mod]
            ring_nf
          · rw [List.range_succ_eq_map]
            have harith : ∀ i : Nat, k + 2 * (i + 1) = k + 2 + 2 * i := by intro i; ring
            simp [List.map_map, Function.comp_def, harith, he]

theorem measure_ok_elim {σ : Type} (label : String) (su : Option (Cb σ)) (act : Cb σ)
    (td : Option (Cb σ)) (gettime : Nat → Option Nat) (iters : Nat) (sub : Bool)
    (s0 : σ) (out : MOut σ)
    (h : measure label su act td gettime iters sub s0 = Except.ok out) :
    iters ≠ 0 ∧
    ∃ w t, warmLoop su act td (iters / 10 + 1) s0 = Except.ok w ∧
      timedLoop su act td gettime iters 0 0 w.st = Except.ok t ∧
      out.warmEvs = w.evs ∧ out.timedEvs = t.evs ∧
      out.report.label = label ∧ out.report.itersField = iters ∧
      out.report.mean_ns_total = (t.acc : Rat) / (iters : Rat) ∧
      ((sub = true ∧ ∃ o, overheadLoop su td gettime iters (2 * iters) 0 t.st = Except.ok o ∧
          out.ovEvs = o.evs ∧
          out.report.overheadLines =
            some ((o.acc : Rat) / (iters : Rat),
                  (t.acc : Rat) / (iters : Rat) - (o.acc : Rat) / (iters : Rat)) ∧
          out.st = o.st ∧ out.snaps = w.snaps ++ t.snaps ++ o.snaps) ∨
       (sub = false ∧ out.ovEvs = [] ∧ out.report.overheadLines = none ∧
          out.st = t.st ∧ out.snaps = w.snaps ++ t.snaps)) := by
  unfold measure at h
  split at h
  · exact absurd h (by simp)
  next hiter =>
    cases hw : warmLoop su act td (iters / 10 + 1) s0 with
    | error e => simp only [hw] at h; exact Except.noConfusion h
    | ok w =>
      simp only [hw] at h
      cases ht : timedLoop su act td gettime iters 0 0 w.st with
      | error e => simp only [ht] at h; exact Except.noConfusion h
      | ok t =>
        simp only [ht] at h
        refine ⟨hiter, w, t, rfl, ht, ?_⟩
        cases sub with
        | true =>
          rw [if_pos rfl] at h
          cases ho : overheadLoop su td gettime iters (2 * iters) 0 t.st with
          | error e => simp only [ho] at h; exact Except.noConfusion h
          | ok o =>
            simp only [ho] at h
            cases h
            exact ⟨rfl, rfl, rfl, rfl, rfl,
              Or.inl ⟨rfl, o, rfl, rfl, rfl, rfl, rfl⟩⟩
        | false =>
          rw [if_neg Bool.false_ne_true] at h
          cases h
          exact ⟨rfl, rfl, rfl, rfl, rfl, Or.inr ⟨rfl, rfl, rfl, rfl, rfl⟩⟩

theorem warm_block_no_clock {σ : Type} (su td : Option (Cb σ)) (n : Nat) :
    (List.flatten (List.replicate n
      (optMark su Ev.setupEv ++ [Ev.actionEv] ++ optMark td Ev.teardownEv))).all
        ev_not_clock = true := by
  induction n with
  | zero => rfl
  | succ n ih =>
    rw [List.replicate_succ]
    cases su <;> cases td <;> simp_all [optMark, ev_not_clock]

theorem warmLoop_id {σ : Type} (n : Nat) (s : σ) :
    warmLoop none (fun x => Except.ok x) none n s =
      Except.ok ⟨s, 0, List.replicate n Ev.actionEv, List.replicate n s⟩ := by
  induction n with
  | zero => rfl
  | succ n ih => simp [warmLoop, optRun, optMark, optSnap, ih, List.replicate_succ]

theorem measure_action_error {σ : Type} (label : String) (gettime : Nat → Option Nat)
    (iters : Nat) (sub : Bool) (e : PExit) (s0 : σ) (h : iters ≠ 0) :
    measure label none (fun _ => Except.error e) none gettime iters sub s0 =
      Except.error e := by
  unfold measure
  rw [if_neg h]
  have hw : warmLoop (σ := σ) none (fun _ => Except.error e) none (iters / 10 + 1) s0 =
      Except.error e := by
    simp [warmLoop, optRun]
  rw [hw]

theorem measure_clock_fail {σ : Type} (label : String) (iters : Nat) (sub : Bool)
    (s0 : σ) (h : iters ≠ 0) :
    measure label none (fun x => Except.ok x) none (fun _ => none) iters sub s0 =
      Except.error ⟨1, "clock_gettime"⟩ := by
  obtain ⟨m, rfl⟩ := Nat.exists_eq_succ_of_ne_zero h
  unfold measure
  rw [if_neg h]
  rw [warmLoop_id]
  simp [timedLoop, optRun, nsecs_now]

theorem nsecs_now_fail (gettime : Nat → Option Nat) (k : Nat)
    (h : gettime k = none) :
    nsecs_now gettime k = Except.error ⟨1, "clock_gettime"⟩ := by
  simp [nsecs_now, h]

theorem act_fork_parent_return_forkFail (os : OS4) (s : S4)
    (h : os.forkFail s.forkCount = true) :
    act_fork_parent_return os s = Except.error ⟨1, "fork"⟩ := by
  simp [act_fork_parent_return, h]

theorem teardown_wait_for_last_child_waitFail (s : S4)
    (h1 : 0 < s.last_child) (h2 : s.last_child ∉ s.zombies) :
    teardown_wait_for_last_child s = Except.error ⟨1, "waitpid"⟩ := by
  simp [teardown_wait_for_last_child, h1, h2]

theorem setup_waitpid_ready_forkFail (os : OS5) (s : S5)
    (h : os.forkFail s.forkCount = true) :
    setup_waitpid_ready os s = Except.error ⟨1, "fork"⟩ := by
  simp [setup_waitpid_ready, h]

theorem act_waitpid_ready_waitErr (os : OS5) (s : S5) (e : Nat)
    (hrz : 0 < s.ready_zombie) (h : os.waitErr s.waitCount = some e) :
    act_waitpid_ready os s = Except.error ⟨1, "waitpid"⟩ := by
  have hne : (-1 : Int) ≠ s.ready_zombie := by omega
  simp [act_waitpid_ready, waitpid5, h, hne]

theorem act_waitpid_ready_noChild (os : OS5) (s : S5)
    (hrz : 0 < s.ready_zombie) (h : os.waitErr s.waitCount = none)
    (hz : s.ready_zombie ∉ s.zombies) :
    act_waitpid_ready os s = Except.error ⟨1, "waitpid"⟩ := by
  have hne : (-1 : Int) ≠ s.ready_zombie := by omega
  simp [act_waitpid_ready, waitpid5, h, hz, hne]

theorem act_fork_child_exit_wait_forkFail (os : OS6) (s : S6)
    (h : os.forkFail s.forkCount = true) :
    act_fork_child_exit_wait os s = Except.error ⟨1, "fork"⟩ := by
  simp [act_fork_child_exit_wait, h]

theorem act_fork_child_exit_wait_waitFail (os : OS6) (s : S6)
    (h : os.forkFail s.forkCount = false) (h2 : os.waitFail s.waitCount = true) :
    act_fork_child_exit_wait os s = Except.error ⟨1, "waitpid"⟩ := by
  simp [act_fork_child_exit_wait, h, h2]

theorem act_system_true_sysFail (os : OS7) (s : S7)
    (h : os.sysFail s.sysCount = true) :
    act_system_true os s = Except.error ⟨1, "system"⟩ := by
  simp [act_system_true, h]

theorem act_mkdir_rmdir_mkFail (os : OS8) (s : S8)
    (h : os.mkFail s.mkCount = true) :
    act_mkdir_rmdir os s = Except.error ⟨1, "mkdtemp"⟩ := by
  simp [act_mkdir_rmdir, h]

theorem act_mkdir_rmdir_rmFail (os : OS8) (s : S8)
    (h : os.mkFail s.mkCount = false) (h2 : os.rmFail s.mkCount = true) :
    act_mkdir_rmdir os s = Except.error ⟨1, "rmdir"⟩ := by
  simp [act_mkdir_rmdir, h, h2]

theorem teardown_wait_ready_otherErr (os : OS5) (s : S5) (e : Nat)
    (hrz : 0 < s.ready_zombie) (h : os.waitErr s.waitCount = some e)
    (he : e ≠ ECHILD) :
    teardown_wait_ready os s = Except.error ⟨1, "waitpid"⟩ := by
  simp [teardown_wait_ready, waitpid5, h, hrz, he]

theorem teardown_wait_ready_echild_ok (os : OS5) (s : S5)
    (hrz : 0 < s.ready_zombie) (h : os.waitErr s.waitCount = some ECHILD) :
    teardown_wait_ready os s =
      Except.ok { s with waitCount := s.waitCount + 1, ready_zombie := -1 } := by
  simp [teardown_wait_ready, waitpid5, h, hrz]

theorem teardown_wait_ready_natural_echild (os : OS5) (s : S5)
    (hrz : 0 < s.ready_zombie) (h : os.waitErr s.waitCount = none)
    (hz : s.ready_zombie ∉ s.zombies) :
    (waitpid5 os s.ready_zombie s).1 = -1 ∧
    (waitpid5 os s.ready_zombie s).2.1 = ECHILD ∧
    teardown_wait_ready os s =
      Except.ok { s with waitCount := s.waitCount + 1, ready_zombie := -1 } := by
  refine ⟨?_, ?_, ?_⟩ <;> simp [teardown_wait_ready, waitpid5, h, hrz, hz]

theorem warmLoop_inv {σ : Type} (su : Option (Cb σ)) (act : Cb σ) (td : Option (Cb σ))
    (P0 P1 P2 : σ → Prop) (B : σ → Bool)
    (hsu : ∀ s t, P0 s → optRun su s = Except.ok t → P1 t)
    (hact : ∀ s t, P1 s → act s = Except.ok t → P2 t)
    (htd : ∀ s t, P2 s → optRun td s = Except.ok t → P0 t)
    (hB0 : ∀ s, P0 s → B s = true)
    (hB1 : ∀ s, P1 s → B s = true)
    (hB2 : ∀ s, P2 s → B s = true) :
    ∀ (n : Nat) (s : σ) (out : LoopOut σ), P0 s →
      warmLoop su act td n s = Except.ok out →
      P0 out.st ∧ out.snaps.all B = true := by
  intro n
  induction n with
  | zero =>
    intro s out hP h
    simp only [warmLoop] at h
    cases h
    exact ⟨hP, rfl⟩
  | succ n ih =>
    intro s out hP h
    simp only [warmLoop] at h
    cases h1 : optRun su s with
    | error e => simp only [h1] at h; exact Except.noConfusion h
    | ok s1 =>
      simp only [h1] at h
      have hP1 : P1 s1 := hsu s s1 hP h1
      cases h2 : act s1 with
      | error e => simp only [h2] at h; exact Except.noConfusion h
      | ok s2 =>
        simp only [h2] at h
        have hP2 : P2 s2 := hact s1 s2 hP1 h2
        cases h3 : optRun td s2 with
        | error e => simp only [h3] at h; exact Except.noConfusion h
        | ok s3 =>
          simp only [h3] at h
          have hP3 : P0 s3 := htd s2 s3 hP2 h3
          cases h4 : warmLoop su act td n s3 with
          | error e => simp only [h4] at h; exact Except.noConfusion h
          | ok rest =>
            simp only [h4] at h
            cases h
            obtain ⟨hPr, hBr⟩ := ih s3 rest hP3 h4
            refine ⟨hPr, ?_⟩
            rw [List.all_eq_true]
            intro x hx
            rw [List.all_eq_true] at hBr
            simp only [List.mem_append, List.mem_singleton] at hx
            rcases hx with ((hx | hx) | hx) | hx
            · cases su with
              | none => simp [optSnap] at hx
              | some f =>
                simp only [optSnap, List.mem_singleton] at hx
                subst hx
                exact hB1 _ hP1
            · subst hx
              exact hB2 _ hP2
            · cases td with
              | none => simp [optSnap] at hx
              | some f =>
                simp only [optSnap, List.mem_singleton] at hx
                subst hx
                exact hB0 _ hP3
            · exact hBr x hx

theorem timedLoop_inv {σ : Type} (su : Option (Cb σ)) (act : Cb σ) (td : Option (Cb σ))
    (gettime : Nat → Option Nat) (P0 P1 P2 : σ → Prop) (B : σ → Bool)
    (hsu : ∀ s t, P0 s → optRun su s = Except.ok t → P1 t)
    (hact : ∀ s t, P1 s → act s = Except.ok t → P2 t)
    (htd : ∀ s t, P2 s → optRun td s = Except.ok t → P0 t)
    (hB0 : ∀ s, P0 s → B s = true)
    (hB1 : ∀ s, P1 s → B s = true)
    (hB2 : ∀ s, P2 s → B s = true) :
    ∀ (n k acc : Nat) (s : σ) (out : LoopOut σ), P0 s →
      timedLoop su act td gettime n k acc s = Except.ok out →
      P0 out.st ∧ out.snaps.all B = true := by
  intro n
  induction n with
  | zero =>
    intro k acc s out hP h
    simp only [timedLoop] at h
    cases h
    exact ⟨hP, rfl⟩
  | succ n ih =>
    intro k acc s out hP h
    simp only [timedLoop] at h
    cases h1 : optRun su s with
    | error e => simp only [h1] at h; exact Except.noConfusion h
    | ok s1 =>
      simp only [h1] at h
      have hP1 : P1 s1 := hsu s s1 hP h1
      cases hc0 : nsecs_now gettime k with
      | error e => simp only [hc0] at h; exact Except.noConfusion h
      | ok t0 =>
        simp only [hc0] at h
        cases h2 : act s1 with
        | error e => simp only [h2] at h; exact Except.noConfusion h
        | ok s2 =>
          simp only [h2] at h
          have hP2 : P2 s2 := hact s1 s2 hP1 h2
          cases hc1 : nsecs_now gettime (k + 1) with
          | error e => simp only [hc1] at h; exact Except.noConfusion h
          | ok t1 =>
            simp only [hc1] at h
            cases h3 : optRun td s2 with
            | error e => simp only [h3] at h; exact Except.noConfusion h
            | ok s3 =>
              simp only [h3] at h
              have hP3 : P0 s3 := htd s2 s3 hP2 h3
              cases h4 : timedLoop su act td gettime n (k + 2)
                  (u64_add acc (u64_sub t1 t0)) s3 with
              | error e => simp only [h4] at h; exact Except.noConfusion h
              | ok rest =>
                simp only [h4] at h
                cases h
                obtain ⟨hPr, hBr⟩ := ih (k + 2) _ s3 rest hP3 h4
                refine ⟨hPr, ?_⟩
                rw [List.all_eq_true]
                intro x hx
                rw [List.all_eq_true] at hBr
                simp only [List.mem_append, List.mem_singleton] at hx
                rcases hx with ((hx | hx) | hx) | hx
                · cases su with
                  | none => simp [optSnap] at hx
                  | some f =>
                    simp only [optSnap, List.mem_singleton] at hx
                    subst hx
                    exact hB1 _ hP1
                · subst hx
                  exact hB2 _ hP2
                · cases td with
                  | none => simp [optSnap] at hx
                  | some f =>
                    simp only [optSnap, List.mem_singleton] at hx
                    subst hx
                    exact hB0 _ hP3
                · exact hBr x hx

theorem overheadLoop_inv {σ : Type} (su : Option (Cb σ)) (td : Option (Cb σ))
    (gettime : Nat → Option Nat) (P0 P1 : σ → Prop) (B : σ → Bool)
    (hsu : ∀ s t, P0 s → optRun su s = Except.ok t → P1 t)
    (htd1 : ∀ s t, P1 s → optRun td s = Except.ok t → P0 t)
    (hB0 : ∀ s, P0 s → B s = true)
    (hB1 : ∀ s, P1 s → B s = true) :
    ∀ (n k acc : Nat) (s : σ) (out : LoopOut σ), P0 s →
      overheadLoop su td gettime n k acc s = Except.ok out →
      P0 out.st ∧ out.snaps.all B = true := by
  intro n
  induction n with
  | zero =>
    intro k acc s out hP h
    simp only [overheadLoop] at h
    cases h
    exact ⟨hP, rfl⟩
  | succ n ih =>
    intro k acc s out hP h
    simp only [overheadLoop] at h
    cases h1 : optRun su s with
    | error e => simp only [h1] at h; exact Except.noConfusion h
    | ok s1 =>
      simp only [h1] at h
      have hP1 : P1 s1 := hsu s s1 hP h1
      cases hc0 : nsecs_now gettime k with
      | error e => simp only [hc0] at h; exact Except.noConfusion h
      | ok t0 =>
        simp only [hc0] at h
        cases hc1 : nsecs_now gettime (k + 1) with
        | error e => simp only [hc1] at h; exact Except.noConfusion h
        | ok t1 =>
          simp only [hc1] at h
          cases h3 : optRun td s1 with
          | error e => simp only [h3] at h; exact Except.noConfusion h
          | ok s3 =>
            simp only [h3] at h
            have hP3 : P0 s3 := htd1 s1 s3 hP1 h3
            cases h4 : overheadLoop su td gettime n (k + 2)
                (u64_add acc (u64_sub t1 t0)) s3 with
            | error e => simp only [h4] at h; exact Except.noConfusion h
            | ok rest =>
              simp only [h4] at h
              cases h
              obtain ⟨hPr, hBr⟩ := ih (k + 2) _ s3 rest hP3 h4
              refine ⟨hPr, ?_⟩
              rw [List.all_eq_true]
              intro x hx
              rw [List.all_eq_true] at hBr
              simp only [List.mem_append] at hx
              rcases hx with (hx | hx) | hx
              · cases su with
                | none => simp [optSnap] at hx
                | some f =>
                  simp only [optSnap, List.mem_singleton] at hx
                  subst hx
                  exact hB1 _ hP1
              · cases td with
                | none => simp [optSnap] at hx
                | some f =>
                  simp only [optSnap, List.mem_singleton] at hx
                  subst hx
                  exact hB0 _ hP3
              · exact hBr x hx

theorem measure_inv {σ : Type} (label : String) (su : Option (Cb σ)) (act : Cb σ)
    (td : Option (Cb σ)) (gettime : Nat → Option Nat) (iters : Nat) (sub : Bool)
    (s0 : σ) (out : MOut σ) (P0 P1 P2 : σ → Prop) (B : σ → Bool)
    (hsu : ∀ s t, P0 s → optRun su s = Except.ok t → P1 t)
    (hact : ∀ s t, P1 s → act s = Except.ok t → P2 t)
    (htd : ∀ s t, P2 s → optRun td s = Except.ok t → P0 t)
    (htd1 : ∀ s t, P1 s → optRun td s = Except.ok t → P0 t)
    (hB0 : ∀ s, P0 s → B s = true)
    (hB1 : ∀ s, P1 s → B s = true)
    (hB2 : ∀ s, P2 s → B s = true)
    (hP : P0 s0)
    (h : measure label su act td gettime iters sub s0 = Except.ok out) :
    P0 out.st ∧ out.snaps.all B = true := by
  obtain ⟨hiter, w, t, hw, ht, hwe, hte, hlb, hif, hmean, hrest⟩ :=
    measure_ok_elim label su act td gettime iters sub s0 out h
  obtain ⟨hwP, hwB⟩ := warmLoop_inv su act td P0 P1 P2 B hsu hact htd hB0 hB1 hB2
    (iters / 10 + 1) s0 w hP hw
  obtain ⟨htP, htB⟩ := timedLoop_inv su act td gettime P0 P1 P2 B hsu hact htd hB0 hB1 hB2
    iters 0 0 w.st t hwP ht
  rcases hrest with ⟨hsub, o, ho, hoe, hol, hst, hsnaps⟩ | ⟨hsub, hoe, hol, hst, hsnaps⟩
  · obtain ⟨hoP, hoB⟩ := overheadLoop_inv su td gettime P0 P1 B hsu htd1 hB0 hB1
      iters (2 * iters) 0 t.st o htP ho
    rw [hst, hsnaps]
    simp only [List.all_append, Bool.and_eq_true]
    exact ⟨hoP, ⟨hwB, htB⟩, hoB⟩
  · rw [hst, hsnaps]
    simp only [List.all_append, Bool.and_eq_true]
    exact ⟨htP, hwB, htB⟩

theorem optRun_none_eq {σ : Type} (s t : σ) (h : optRun none s = Except.ok t) :
    t = s := by
  simp only [optRun] at h
  cases h
  rfl

theorem s4_act_inv (os : OS4) : ∀ s t, Inv4 s →
    act_fork_parent_return os s = Except.ok t →
    ∃ p : Int, 0 < p ∧ t.zombies = [p] ∧ t.last_child = p ∧ 0 < t.nextPid := by
  intro s t hP h
  obtain ⟨hlc, hz, hnp⟩ := hP
  cases hf : os.forkFail s.forkCount with
  | true => rw [act_fork_parent_return_forkFail os s hf] at h; exact Except.noConfusion h
  | false =>
    simp only [act_fork_parent_return, hf, Bool.false_eq_true, if_false] at h
    cases h
    exact ⟨s.nextPid, hnp, by simp [hz], rfl, by show 0 < s.nextPid + 1; omega⟩

theorem s4_td_inv : ∀ s t,
    (∃ p : Int, 0 < p ∧ s.zombies = [p] ∧ s.last_child = p ∧ 0 < s.nextPid) →
    optRun (some teardown_wait_for_last_child) s = Except.ok t → Inv4 t := by
  intro s t hP h
  obtain ⟨p, hp, hz, hlc, hnp⟩ := hP
  simp only [optRun, teardown_wait_for_last_child, hlc, hz] at h
  rw [if_pos hp] at h
  rw [if_pos (List.mem_singleton_self p)] at h
  cases h
  exact ⟨rfl, by simp, hnp⟩

theorem s4_td_noop : ∀ s t, Inv4 s →
    optRun (some teardown_wait_for_last_child) s = Except.ok t → Inv4 t := by
  intro s t hP h
  obtain ⟨hlc, hz, hnp⟩ := hP
  simp only [optRun, teardown_wait_for_last_child, hlc] at h
  norm_num at h
  cases h
  exact ⟨hlc, hz, hnp⟩

theorem s5_setup_inv (os : OS5) : ∀ s t, Inv5 s →
    optRun (some (setup_waitpid_ready os)) s = Except.ok t →
    ∃ p : Int, 0 < p ∧ t.zombies = [p] ∧ t.ready_zombie = p ∧ 0 < t.nextPid := by
  intro s t hP h
  obtain ⟨hz, hnp⟩ := hP
  cases hf : os.forkFail s.forkCount with
  | true =>
    rw [optRun, setup_waitpid_ready_forkFail os s hf] at h
    exact Except.noConfusion h
  | false =>
    simp only [optRun, setup_waitpid_ready, hf, Bool.false_eq_true, if_false] at h
    cases h
    exact ⟨s.nextPid, hnp, by simp [hz], rfl, by show 0 < s.nextPid + 1; omega⟩

theorem s5_act_inv (os : OS5) (hwe : ∀ k, os.waitErr k = none) : ∀ s t,
    (∃ p : Int, 0 < p ∧ s.zombies = [p] ∧ s.ready_zombie = p ∧ 0 < s.nextPid) →
    act_waitpid_ready os s = Except.ok t → Inv5 t := by
  intro s t hP h
  obtain ⟨p, hp, hz, hrz, hnp⟩ := hP
  unfold act_waitpid_ready at h
  simp only [waitpid5, hwe, hrz, hz] at h
  rw [if_pos (List.mem_singleton_self p)] at h
  rw [if_neg (by simp)] at h
  cases h
  exact ⟨by simp, hnp⟩

theorem s5_td_inv (os : OS5) (hwe : ∀ k, os.waitErr k = none) : ∀ s t, Inv5 s →
    optRun (some (teardown_wait_ready os)) s = Except.ok t → Inv5 t := by
  intro s t hP h
  obtain ⟨hz, hnp⟩ := hP
  by_cases hrz : 0 < s.ready_zombie
  · have hmem : s.ready_zombie ∉ s.zombies := by simp [hz]
    rw [optRun, (teardown_wait_ready_natural_echild os s hrz (hwe _) hmem).2.2] at h
    cases h
    exact ⟨hz, hnp⟩
  · simp only [optRun, teardown_wait_ready, if_neg hrz] at h
    cases h
    exact ⟨hz, hnp⟩

theorem s5_td_reaps (os : OS5) (hwe : ∀ k, os.waitErr k = none) : ∀ s t,
    (∃ p : Int, 0 < p ∧ s.zombies = [p] ∧ s.ready_zombie = p ∧ 0 < s.nextPid) →
    optRun (some (teardown_wait_ready os)) s = Except.ok t → Inv5 t := by
  intro s t hP h
  obtain ⟨p, hp, hz, hrz, hnp⟩ := hP
  have hrzpos : 0 < s.ready_zombie := by omega
  simp only [optRun] at h
  unfold teardown_wait_ready at h
  rw [if_pos hrzpos] at h
  simp only [waitpid5, hwe, hrz, hz] at h
  rw [if_pos (List.mem_singleton_self p)] at h
  rw [if_neg (by intro hc; exact absurd hc.1 (by omega))] at h
  cases h
  exact ⟨by simp, hnp⟩

theorem s6_act_inv (os : OS6) : ∀ s t, Inv6 s →
    act_fork_child_exit_wait os s = Except.ok t → Inv6 t := by
  intro s t hP h
  obtain ⟨hz, hnp⟩ := hP
  cases hf : os.forkFail s.forkCount with
  | true => rw [act_fork_child_exit_wait_forkFail os s hf] at h; exact Except.noConfusion h
  | false =>
    cases hwf : os.waitFail s.waitCount with
    | true => rw [act_fork_child_exit_wait_waitFail os s hf hwf] at h; exact Except.noConfusion h
    | false =>
      unfold act_fork_child_exit_wait at h
      simp only [hf, hwf, Bool.false_eq_true, if_false, hz] at h
      rw [if_pos (show s.nextPid ∈ [] ++ [s.nextPid] by simp)] at h
      cases h
      exact ⟨by simp, by show 0 < s.nextPid + 1; omega⟩

/-- C5: calling `measure` with an iteration count of 0 reports the diagnostic
"iters must be > 0" on the error stream and terminates the process with exit
status 2 — for every choice of callbacks, clock and initial state, so no
warm-up cycle, clock read or report output can have happened. -/
theorem C5_zero_iters_exit_2 {σ : Type} (label : String) (su : Option (Cb σ))
    (act : Cb σ) (td : Option (Cb σ)) (gettime : Nat → Option Nat) (sub : Bool)
    (s0 : σ) :
    measure label su act td gettime 0 sub s0 =
      Except.error ⟨2, "iters must be > 0"⟩ := by
  unfold measure
  rw [if_pos rfl]

/-- C1: a successful `measure` run performs exactly `iters` timed cycles,
each consisting of the optional setup, the start clock reading, the action,
the end clock reading and the optional teardown, in that order; each cycle
contributes the `uint64_t` difference end − start to the accumulator; the
printed iters field equals `iters`; `mean_ns_total` is the final accumulator
divided by `iters`, computed after all cycles; and the warm-up phase contains
no clock reading at all, so it contributes to neither value. -/
theorem C1_timed_phase {σ : Type} (label : String) (su : Option (Cb σ)) (act : Cb σ)
    (td : Option (Cb σ)) (gt : Nat → Nat) (iters : Nat) (sub : Bool) (s0 : σ)
    (out : MOut σ)
    (h : measure label su act td (fun j => some (gt j)) iters sub s0 = Except.ok out) :
    out.report.itersField = iters ∧
    out.report.mean_ns_total =
      (((clockDeltas gt 0 iters).sum % U64 : Nat) : Rat) / (iters : Rat) ∧
    out.timedEvs = ((List.range iters).map (fun i =>
      optMark su Ev.setupEv
        ++ [Ev.clockEv (gt (2 * i) % U64), Ev.actionEv, Ev.clockEv (gt (2 * i + 1) % U64)]
        ++ optMark td Ev.teardownEv)).flatten ∧
    out.warmEvs.all ev_not_clock = true := by
  obtain ⟨hiter, w, t, hw, ht, hwe, hte, hlb, hif, hmean, hrest⟩ :=
    measure_ok_elim label su act td (fun j => some (gt j)) iters sub s0 out h
  obtain ⟨hacc, hevs⟩ := timedLoop_ok_shape su act td gt iters 0 0 w.st t U64_pos ht
  obtain ⟨hwacc, hwevs⟩ := warmLoop_ok_shape su act td (iters / 10 + 1) s0 w hw
  refine ⟨hif, ?_, ?_, ?_⟩
  · rw [hmean, hacc]
    norm_num
  · rw [hte, hevs]
    simp only [Nat.zero_add]
  · rw [hwe, hwevs]
    exact warm_block_no_clock su td (iters / 10 + 1)

/-- C1 witness: the timed-phase theorem applied at a concrete one-iteration
run over the identity clock. -/
theorem C1_timed_phase_witness :
    ((measure "w" none (fun n : Nat => Except.ok (n + 1)) none (fun j => some j)
        1 false 0).toOption.map
      (fun out => (out.report.itersField, out.report.mean_ns_total,
        out.timedEvs, out.warmEvs.all ev_not_clock))) =
      some (1, (((clockDeltas (fun k => k) 0 1).sum % U64 : Nat) : Rat) / ((1 : Nat) : Rat),
        ((List.range 1).map (fun i =>
          optMark (none : Option (Cb Nat)) Ev.setupEv
            ++ [Ev.clockEv ((fun k => k) (2 * i) % U64), Ev.actionEv,
                Ev.clockEv ((fun k => k) (2 * i + 1) % U64)]
            ++ optMark (none : Option (Cb Nat)) Ev.teardownEv)).flatten, true) := by
  cases hm : measure "w" none (fun n : Nat => Except.ok (n + 1)) none
      (fun j => some j) 1 false 0 with
  | error e =>
    have hsome : (measure "w" none (fun n : Nat => Except.ok (n + 1)) none
        (fun j => some j) 1 false 0).toOption.isSome = true := by decide
    rw [hm] at hsome
    simp [Except.toOption] at hsome
  | ok out =>
    obtain ⟨h1, h2, h3, h4⟩ := C1_timed_phase "w" none (fun n : Nat => Except.ok (n + 1))
      none (fun k => k) 1 false 0 out hm
    simp only [Except.toOption, Option.map]
    rw [h1, h2, h3, h4]

/-- C2: with the subtract-overhead flag set, `measure` runs an overhead phase
of exactly `iters` cycles with the same optional setup and teardown and an
empty critical section between the two clock readings; the printed report
then contains the overhead mean and a subtracted mean that equals exactly
`mean_ns_total` minus the overhead mean; with the flag clear, no overhead
cycle runs and neither extra line is printed. -/
theorem C2_overhead_phase {σ : Type} (label : String) (su : Option (Cb σ)) (act : Cb σ)
    (td : Option (Cb σ)) (gt : Nat → Nat) (iters : Nat) (s0 : σ)
    (out out2 : MOut σ) :
    (measure label su act td (fun j => some (gt j)) iters true s0 = Except.ok out →
      out.ovEvs = ((List.range iters).map (fun i =>
        optMark su Ev.setupEv
          ++ [Ev.clockEv (gt (2 * iters + 2 * i) % U64), Ev.emptyEv,
              Ev.clockEv (gt (2 * iters + 2 * i + 1) % U64)]
          ++ optMark td Ev.teardownEv)).flatten ∧
      out.report.overheadLines =
        some ((((clockDeltas gt (2 * iters) iters).sum % U64 : Nat) : Rat) / (iters : Rat),
          out.report.mean_ns_total -
            (((clockDeltas gt (2 * iters) iters).sum % U64 : Nat) : Rat) / (iters : Rat))) ∧
    (measure label su act td (fun j => some (gt j)) iters false s0 = Except.ok out2 →
      out2.report.overheadLines = none ∧ out2.ovEvs = []) := by
  constructor
  · intro h
    obtain ⟨hiter, w, t, hw, ht, hwe, hte, hlb, hif, hmean, hrest⟩ :=
      measure_ok_elim label su act td (fun j => some (gt j)) iters true s0 out h
    rcases hrest with ⟨hsub, o, ho, hoe, hol, hst, hsnaps⟩ | ⟨hsub, _, _, _, _⟩
    · obtain ⟨hacc, hevs⟩ :=
        overheadLoop_ok_shape su td gt iters (2 * iters) 0 t.st o U64_pos ho
      constructor
      · rw [hoe, hevs]
      · rw [hol, hmean, hacc]
        norm_num
    · exact absurd hsub (by simp)
  · intro h
    obtain ⟨hiter, w, t, hw, ht, hwe, hte, hlb, hif, hmean, hrest⟩ :=
      measure_ok_elim label su act td (fun j => some (gt j)) iters false s0 out2 h
    rcases hrest with ⟨hsub, _⟩ | ⟨hsub, hoe, hol, _, _⟩
    · exact absurd hsub (by simp)
    · exact ⟨hol, hoe⟩

/-- C2 witness: the overhead-phase theorem applied at a concrete
one-iteration run, once with the flag set and once with it clear. -/
theorem C2_overhead_phase_witness :
    ((measure "w" none (fun n : Nat => Except.ok (n + 1)) none (fun j => some j)
        1 true 0).toOption.map
      (fun out => (out.ovEvs, out.report.overheadLines))) =
      some (((List.range 1).map (fun i =>
          optMark (none : Option (Cb Nat)) Ev.setupEv
            ++ [Ev.clockEv ((fun k => k) (2 * 1 + 2 * i) % U64), Ev.emptyEv,
                Ev.clockEv ((fun k => k) (2 * 1 + 2 * i + 1) % U64)]
            ++ optMark (none : Option (Cb Nat)) Ev.teardownEv)).flatten,
        some ((((clockDeltas (fun k => k) (2 * 1) 1).sum % U64 : Nat) : Rat) / ((1 : Nat) : Rat),
          (((clockDeltas (fun k => k) 0 1).sum % U64 : Nat) : Rat) / ((1 : Nat) : Rat) -
            (((clockDeltas (fun k => k) (2 * 1) 1).sum % U64 : Nat) : Rat) / ((1 : Nat) : Rat))) ∧
    ((measure "w" none (fun n : Nat => Except.ok (n + 1)) none (fun j => some j)
        1 false 0).toOption.map
      (fun out => (out.report.overheadLines, out.ovEvs))) = some (none, []) := by
  constructor
  · cases hm : measure "w" none (fun n : Nat => Except.ok (n + 1)) none
        (fun j => some j) 1 true 0 with
    | error e =>
      have hsome : (measure "w" none (fun n : Nat => Except.ok (n + 1)) none
          (fun j => some j) 1 true 0).toOption.isSome = true := by decide
      rw [hm] at hsome
      simp [Except.toOption] at hsome
    | ok out =>
      obtain ⟨h1, h2⟩ := (C2_overhead_phase "w" none (fun n : Nat => Except.ok (n + 1))
        none (fun k => k) 1 0 out out).1 hm
      obtain ⟨_, w, t, hw, ht, _, _, _, _, hmean, _⟩ :=
        measure_ok_elim "w" none (fun n : Nat => Except.ok (n + 1)) none
          (fun j => some ((fun k => k) j)) 1 true 0 out hm
      obtain ⟨hacc, _⟩ :=
        timedLoop_ok_shape none (fun n : Nat => Except.ok (n + 1)) none
          (fun k => k) 1 0 0 w.st t U64_pos ht
      simp only [Except.toOption, Option.map]
      rw [h1, h2, hmean, hacc]
      norm_num
  · cases hm : measure "w" none (fun n : Nat => Except.ok (n + 1)) none
        (fun j => some j) 1 false 0 with
    | error e =>
      have hsome : (measure "w" none (fun n : Nat => Except.ok (n + 1)) none
          (fun j => some j) 1 false 0).toOption.isSome = true := by decide
      rw [hm] at hsome
      simp [Except.toOption] at hsome
    | ok out =>
      obtain ⟨h1, h2⟩ := (C2_overhead_phase "w" none (fun n : Nat => Except.ok (n + 1))
        none (fun k => k) 1 0 out out).2 hm
      simp only [Except.toOption, Option.map]
      rw [h1, h2]

/-- C3 counterexample: at `iterations = 10` the code performs
`10 / 10 + 1 = 2` warm-up cycles, while the claimed count is
`max(10 / 10, 1) = 1`. -/
theorem C3_warm_count_counterexample :
    ((measure "w" none (fun n : Nat => Except.ok n) none (fun j => some j)
        10 false 0).toOption.map (fun out => out.warmEvs.length)) = some 2 ∧
    spec_warm 10 = 1 ∧ (2 : Nat) ≠ 1 := by
  refine ⟨by decide, by decide, by decide⟩

/-- C3 amended: for every successful run, the warm-up phase of `measure`
consists of exactly `iterations / 10 + 1` full setup→action→teardown cycles
(integer division) — not `max(iterations / 10, 1)` — and contains no clock
reading, so all timing data of those cycles is discarded. -/
theorem C3_warm_count_amended {σ : Type} (label : String) (su : Option (Cb σ))
    (act : Cb σ) (td : Option (Cb σ)) (gettime : Nat → Option Nat) (iters : Nat)
    (sub : Bool) (s0 : σ) (out : MOut σ)
    (h : measure label su act td gettime iters sub s0 = Except.ok out) :
    out.warmEvs = List.flatten (List.replicate (iters / 10 + 1)
      (optMark su Ev.setupEv ++ [Ev.actionEv] ++ optMark td Ev.teardownEv)) ∧
    out.warmEvs.all ev_not_clock = true := by
  obtain ⟨hiter, w, t, hw, ht, hwe, hte, _, _, _, _⟩ :=
    measure_ok_elim label su act td gettime iters sub s0 out h
  obtain ⟨_, hsh⟩ := warmLoop_ok_shape su act td (iters / 10 + 1) s0 w hw
  refine ⟨by rw [hwe, hsh], ?_⟩
  rw [hwe, hsh]
  exact warm_block_no_clock su td (iters / 10 + 1)

/-- C3 witness: the amended warm-up-count theorem applied at a concrete
ten-iteration run. -/
theorem C3_warm_count_amended_witness :
    ((measure "w" none (fun n : Nat => Except.ok n) none (fun j => some j)
        10 false 0).toOption.map
      (fun out => (out.warmEvs, out.warmEvs.all ev_not_clock))) =
      some (List.flatten (List.replicate (10 / 10 + 1)
        (optMark (none : Option (Cb Nat)) Ev.setupEv ++ [Ev.actionEv]
          ++ optMark (none : Option (Cb Nat)) Ev.teardownEv)), true) := by
  cases hm : measure "w" none (fun n : Nat => Except.ok n) none
      (fun j => some j) 10 false 0 with
  | error e =>
    have hsome : (measure "w" none (fun n : Nat => Except.ok n) none
        (fun j => some j) 10 false 0).toOption.isSome = true := by decide
    rw [hm] at hsome
    simp [Except.toOption] at hsome
  | ok out =>
    obtain ⟨h1, h2⟩ := C3_warm_count_amended "w" none (fun n : Nat => Except.ok n)
      none (fun j => some j) 10 false 0 out hm
    simp only [Except.toOption, Option.map]
    rw [h2, h1]

/-- C4 counterexample: the string "3abc" is not an integer, so by the claim
the process should print usage and exit with status 2; the code instead
parses it with `atoi` to 3 and runs scenario 3, exiting 0 on completion. -/
theorem C4_dispatch_counterexample :
    isIntString "3abc" = false ∧
    mainSelect ["3abc"] = Except.ok ⟨3, "scenario_3_getppid", 200000, true⟩ := by
  refine ⟨by decide, by decide⟩

/-- C4 amended: argument handling follows C `atoi` semantics.  Any argument
vector that is not exactly one string yields the usage failure (status 2, no
scenario selected, hence no timing output); so does a single argument whose
`atoi` value lies outside [1, 8] — including non-numeric strings, "0" and
"9".  A single argument whose `atoi` value v lies in [1, 8] — even with
trailing garbage, as in "3abc" — selects exactly the scenario descriptor of
index v, and the process exits 0 on successful completion. -/
theorem C4_dispatch_amended :
    (∀ args : List String, (∀ a : String, args ≠ [a]) →
      mainSelect args = Except.error usageExit) ∧
    (∀ a : String, ¬(1 ≤ atoi a ∧ atoi a ≤ 8) →
      mainSelect [a] = Except.error usageExit) ∧
    (∀ a : String, 1 ≤ atoi a → atoi a ≤ 8 →
      mainSelect [a] = Except.ok (scenAt (atoi a).toNat) ∧
      (scenAt (atoi a).toNat).idx = (atoi a).toNat) := by
  refine ⟨?_, ?_, ?_⟩
  · intro args hne
    cases args with
    | nil => rfl
    | cons a t =>
      cases t with
      | nil => exact absurd rfl (hne a)
      | cons b t2 => rfl
  · intro a hn
    have hnone : scenarioOf (atoi a) = none := by
      unfold scenarioOf
      split_ifs <;> first | rfl | (exfalso; exact hn (by constructor <;> omega))
    simp [mainSelect, hnone]
  · intro a h1 h8
    have hv : atoi a = 1 ∨ atoi a = 2 ∨ atoi a = 3 ∨ atoi a = 4 ∨ atoi a = 5 ∨
        atoi a = 6 ∨ atoi a = 7 ∨ atoi a = 8 := by omega
    rcases hv with hv | hv | hv | hv | hv | hv | hv | hv <;>
      simp [mainSelect, scenarioOf, scenAt, hv]

/-- C4 witness: the amended dispatch theorem applied at the out-of-range
argument "9" and the in-range argument "5". -/
theorem C4_dispatch_amended_witness :
    mainSelect ["9"] = Except.error usageExit ∧
    mainSelect ["5"] = Except.ok (scenAt 5) := by
  constructor
  · exact C4_dispatch_amended.2.1 "9" (by decide)
  · have h := (C4_dispatch_amended.2.2 "5" (by decide) (by decide)).1
    have h5 : (atoi "5").toNat = 5 := by decide
    rw [h5] at h
    exact h

/-- C6: every monitored OS primitive is fatal on failure with exit status 1
and the original diagnostic — the clock read, the forks of scenarios 4, 5
and 6, the `waitpid` calls of scenarios 4 and 6, `mkdtemp` and `rmdir` of
scenario 8 and the subshell call of scenario 7 — and `measure` aborts
immediately with exactly the failing component's error: the error value
propagates unchanged and, the result being an error, no part of the report
exists (no partial report, no retry). -/
theorem C6_os_failure_fatal :
    (∀ (gettime : Nat → Option Nat) (k : Nat), gettime k = none →
      nsecs_now gettime k = Except.error ⟨1, "clock_gettime"⟩) ∧
    (∀ (os : OS4) (s : S4), os.forkFail s.forkCount = true →
      act_fork_parent_return os s = Except.error ⟨1, "fork"⟩) ∧
    (∀ (s : S4), 0 < s.last_child → s.last_child ∉ s.zombies →
      teardown_wait_for_last_child s = Except.error ⟨1, "waitpid"⟩) ∧
    (∀ (os : OS5) (s : S5), os.forkFail s.forkCount = true →
      setup_waitpid_ready os s = Except.error ⟨1, "fork"⟩) ∧
    (∀ (os : OS6) (s : S6), os.forkFail s.forkCount = true →
      act_fork_child_exit_wait os s = Except.error ⟨1, "fork"⟩) ∧
    (∀ (os : OS6) (s : S6), os.forkFail s.forkCount = false →
      os.waitFail s.waitCount = true →
      act_fork_child_exit_wait os s = Except.error ⟨1, "waitpid"⟩) ∧
    (∀ (os : OS7) (s : S7), os.sysFail s.sysCount = true →
      act_system_true os s = Except.error ⟨1, "system"⟩) ∧
    (∀ (os : OS8) (s : S8), os.mkFail s.mkCount = true →
      act_mkdir_rmdir os s = Except.error ⟨1, "mkdtemp"⟩) ∧
    (∀ (os : OS8) (s : S8), os.mkFail s.mkCount = false →
      os.rmFail s.mkCount = true →
      act_mkdir_rmdir os s = Except.error ⟨1, "rmdir"⟩) ∧
    (∀ (σ : Type) (label : String) (gettime : Nat → Option Nat) (iters : Nat)
        (sub : Bool) (e : PExit) (s0 : σ), iters ≠ 0 →
      measure label none (fun _ => Except.error e) none gettime iters sub s0 =
        Except.error e) ∧
    (∀ (σ : Type) (label : String) (iters : Nat) (sub : Bool) (s0 : σ), iters ≠ 0 →
      measure label none (fun x => Except.ok x) none (fun _ => none) iters sub s0 =
        Except.error ⟨1, "clock_gettime"⟩) :=
  ⟨nsecs_now_fail,
   act_fork_parent_return_forkFail,
   teardown_wait_for_last_child_waitFail,
   setup_waitpid_ready_forkFail,
   act_fork_child_exit_wait_forkFail,
   act_fork_child_exit_wait_waitFail,
   act_system_true_sysFail,
   act_mkdir_rmdir_mkFail,
   act_mkdir_rmdir_rmFail,
   fun _ label gettime iters sub e s0 h =>
     measure_action_error label gettime iters sub e s0 h,
   fun _ label iters sub s0 h => measure_clock_fail label iters sub s0 h⟩

/-- C6 witness: the failure-fatality theorem applied at concrete failing
primitives and a concrete one-iteration run under a failing clock. -/
theorem C6_os_failure_fatal_witness :
    nsecs_now (fun _ => none) 0 = Except.error ⟨1, "clock_gettime"⟩ ∧
    act_fork_parent_return ⟨fun _ => true⟩ ⟨-1, 0, [], 1, 0⟩ =
      Except.error ⟨1, "fork"⟩ ∧
    teardown_wait_for_last_child ⟨7, 0, [], 8, 1⟩ = Except.error ⟨1, "waitpid"⟩ ∧
    act_mkdir_rmdir ⟨fun _ => true, fun _ => false⟩ ⟨dir_template, 0, []⟩ =
      Except.error ⟨1, "mkdtemp"⟩ ∧
    measure "m" none (fun x : Nat => Except.ok x) none (fun _ => none) 1 false 0 =
      Except.error ⟨1, "clock_gettime"⟩ := by
  refine ⟨?_, ?_, ?_, ?_, ?_⟩
  · exact C6_os_failure_fatal.1 (fun _ => none) 0 rfl
  · exact C6_os_failure_fatal.2.1 ⟨fun _ => true⟩ ⟨-1, 0, [], 1, 0⟩ rfl
  · exact C6_os_failure_fatal.2.2.1 ⟨7, 0, [], 8, 1⟩ (by decide) (by decide)
  · exact C6_os_failure_fatal.2.2.2.2.2.2.2.1 ⟨fun _ => true, fun _ => false⟩
      ⟨dir_template, 0, []⟩ rfl
  · exact C6_os_failure_fatal.2.2.2.2.2.2.2.2.2.2 Nat "m" 1 false 0 (by decide)

/-- C7: in every fork-based scenario, every state reached after a callback
invocation during a successful `measure` run has at most one unreaped child;
in the process-creation scenario (4) the run moreover ends with an empty
zombie table and a cleared `last_child` register, so every child forked in
any warm-up, timed or overhead cycle has been reaped by the matching
teardown; scenarios 5 and 6 also end with an empty zombie table. -/
theorem C7_at_most_one_unreaped_child :
    (∀ (os : OS4) (gettime : Nat → Option Nat) (label : String) (iters : Nat)
        (sub : Bool) (s0 : S4) (out : MOut S4), Inv4 s0 →
      measure label none (act_fork_parent_return os)
          (some teardown_wait_for_last_child) gettime iters sub s0 = Except.ok out →
      out.snaps.all zleB4 = true ∧ out.st.zombies = [] ∧ out.st.last_child = -1) ∧
    (∀ (os : OS5) (gettime : Nat → Option Nat) (label : String) (iters : Nat)
        (sub : Bool) (s0 : S5) (out : MOut S5), (∀ k, os.waitErr k = none) →
      Inv5 s0 →
      measure label (some (setup_waitpid_ready os)) (act_waitpid_ready os)
          (some (teardown_wait_ready os)) gettime iters sub s0 = Except.ok out →
      out.snaps.all zleB5 = true ∧ out.st.zombies = []) ∧
    (∀ (os : OS6) (gettime : Nat → Option Nat) (label : String) (iters : Nat)
        (sub : Bool) (s0 : S6) (out : MOut S6), Inv6 s0 →
      measure label none (act_fork_child_exit_wait os) none gettime iters sub s0 =
        Except.ok out →
      out.snaps.all zleB6 = true ∧ out.st.zombies = []) := by
  refine ⟨?_, ?_, ?_⟩
  · intro os gettime label iters sub s0 out hInv h
    have hres := measure_inv label none (act_fork_parent_return os)
      (some teardown_wait_for_last_child) gettime iters sub s0 out
      Inv4 Inv4
      (fun s => ∃ p : Int, 0 < p ∧ s.zombies = [p] ∧ s.last_child = p ∧ 0 < s.nextPid)
      zleB4
      (fun s t hP hh => by rw [optRun_none_eq s t hh]; exact hP)
      (s4_act_inv os)
      s4_td_inv
      s4_td_noop
      (fun s hP => by simp [zleB4, hP.2.1])
      (fun s hP => by simp [zleB4, hP.2.1])
      (fun s hP => by obtain ⟨p, _, hz, _, _⟩ := hP; simp [zleB4, hz])
      hInv h
    exact ⟨hres.2, hres.1.2.1, hres.1.1⟩
  · intro os gettime label iters sub s0 out hwe hInv h
    have hres := measure_inv label (some (setup_waitpid_ready os))
      (act_waitpid_ready os) (some (teardown_wait_ready os)) gettime iters sub s0 out
      Inv5
      (fun s => ∃ p : Int, 0 < p ∧ s.zombies = [p] ∧ s.ready_zombie = p ∧ 0 < s.nextPid)
      Inv5
      zleB5
      (s5_setup_inv os)
      (s5_act_inv os hwe)
      (s5_td_inv os hwe)
      (s5_td_reaps os hwe)
      (fun s hP => by simp [zleB5, hP.1])
      (fun s hP => by obtain ⟨p, _, hz, _, _⟩ := hP; simp [zleB5, hz])
      (fun s hP => by simp [zleB5, hP.1])
      hInv h
    exact ⟨hres.2, hres.1.1⟩
  · intro os gettime label iters sub s0 out hInv h
    have hres := measure_inv label none (act_fork_child_exit_wait os) none
      gettime iters sub s0 out
      Inv6 Inv6 Inv6 zleB6
      (fun s t hP hh => by rw [optRun_none_eq s t hh]; exact hP)
      (s6_act_inv os)
      (fun s t hP hh => by rw [optRun_none_eq s t hh]; exact hP)
      (fun s t hP hh => by rw [optRun_none_eq s t hh]; exact hP)
      (fun s hP => by simp [zleB6, hP.1])
      (fun s hP => by simp [zleB6, hP.1])
      (fun s hP => by simp [zleB6, hP.1])
      hInv h
    exact ⟨hres.2, hres.1.1⟩

/-- C7 witness: the bounded-children theorem applied at concrete
one-iteration runs of scenarios 4, 5 and 6 over a well-behaved OS. -/
theorem C7_at_most_one_unreaped_child_witness :
    ((measure "s4" none (act_fork_parent_return ⟨fun _ => false⟩)
        (some teardown_wait_for_last_child) (fun j => some j) 1 false
        ⟨-1, 0, [], 1, 0⟩).toOption.map
      (fun out => (out.snaps.all zleB4, out.st.zombies, out.st.last_child))) =
      some (true, [], -1) ∧
    ((measure "s5" (some (setup_waitpid_ready ⟨fun _ => false, fun _ => none⟩))
        (act_waitpid_ready ⟨fun _ => false, fun _ => none⟩)
        (some (teardown_wait_ready ⟨fun _ => false, fun _ => none⟩))
        (fun j => some j) 1 false ⟨-1, 0, [], 1, 0, 0, []⟩).toOption.map
      (fun out => (out.snaps.all zleB5, out.st.zombies))) = some (true, []) ∧
    ((measure "s6" none (act_fork_child_exit_wait ⟨fun _ => false, fun _ => false⟩)
        none (fun j => some j) 1 false ⟨0, [], 1, 0, 0⟩).toOption.map
      (fun out => (out.snaps.all zleB6, out.st.zombies))) = some (true, []) := by
  refine ⟨?_, ?_, ?_⟩
  · cases hm : measure "s4" none (act_fork_parent_return ⟨fun _ => false⟩)
        (some teardown_wait_for_last_child) (fun j => some j) 1 false
        ⟨-1, 0, [], 1, 0⟩ with
    | error e =>
      have hsome : (measure "s4" none (act_fork_parent_return ⟨fun _ => false⟩)
          (some teardown_wait_for_last_child) (fun j => some j) 1 false
          ⟨-1, 0, [], 1, 0⟩).toOption.isSome = true := by decide
      rw [hm] at hsome
      simp [Except.toOption] at hsome
    | ok out =>
      obtain ⟨h1, h2, h3⟩ := C7_at_most_one_unreaped_child.1 ⟨fun _ => false⟩
        (fun j => some j) "s4" 1 false ⟨-1, 0, [], 1, 0⟩ out
        ⟨rfl, rfl, by decide⟩ hm
      simp only [Except.toOption, Option.map]
      rw [h1, h2, h3]
  · cases hm : measure "s5" (some (setup_waitpid_ready ⟨fun _ => false, fun _ => none⟩))
        (act_waitpid_ready ⟨fun _ => false, fun _ => none⟩)
        (some (teardown_wait_ready ⟨fun _ => false, fun _ => none⟩))
        (fun j => some j) 1 false ⟨-1, 0, [], 1, 0, 0, []⟩ with
    | error e =>
      have hsome : (measure "s5"
          (some (setup_waitpid_ready ⟨fun _ => false, fun _ => none⟩))
          (act_waitpid_ready ⟨fun _ => false, fun _ => none⟩)
          (some (teardown_wait_ready ⟨fun _ => false, fun _ => none⟩))
          (fun j => some j) 1 false ⟨-1, 0, [], 1, 0, 0, []⟩).toOption.isSome = true := by
        decide
      rw [hm] at hsome
      simp [Except.toOption] at hsome
    | ok out =>
      obtain ⟨h1, h2⟩ := C7_at_most_one_unreaped_child.2.1
        ⟨fun _ => false, fun _ => none⟩ (fun j => some j) "s5" 1 false
        ⟨-1, 0, [], 1, 0, 0, []⟩ out (fun k => rfl) ⟨rfl, by decide⟩ hm
      simp only [Except.toOption, Option.map]
      rw [h1, h2]
  · cases hm : measure "s6" none
        (act_fork_child_exit_wait ⟨fun _ => false, fun _ => false⟩) none
        (fun j => some j) 1 false ⟨0, [], 1, 0, 0⟩ with
    | error e =>
      have hsome : (measure "s6" none
          (act_fork_child_exit_wait ⟨fun _ => false, fun _ => false⟩) none
          (fun j => some j) 1 false ⟨0, [], 1, 0, 0⟩).toOption.isSome = true := by
        decide
      rw [hm] at hsome
      simp [Except.toOption] at hsome
    | ok out =>
      obtain ⟨h1, h2⟩ := C7_at_most_one_unreaped_child.2.2
        ⟨fun _ => false, fun _ => false⟩ (fun j => some j) "s6" 1 false
        ⟨0, [], 1, 0, 0⟩ out ⟨rfl, by decide⟩ hm
      simp only [Except.toOption, Option.map]
      rw [h1, h2]

theorem setup5_ok_shape (os : OS5) (s s1 : S5)
    (h : setup_waitpid_ready os s = Except.ok s1) :
    s1.ready_zombie = s.nextPid ∧ s1.zombies = s.zombies ++ [s.nextPid] ∧
    s1.sleeps_ns = s.sleeps_ns ++ [2 * 1000 * 1000] := by
  cases hf : os.forkFail s.forkCount with
  | true => rw [setup_waitpid_ready_forkFail os s hf] at h; exact Except.noConfusion h
  | false =>
    simp only [setup_waitpid_ready, hf, Bool.false_eq_true, if_false] at h
    cases h
    exact ⟨rfl, rfl, rfl⟩

theorem act5_mismatch_fatal (os : OS5) (s : S5)
    (h : (waitpid5 os s.ready_zombie s).1 ≠ s.ready_zombie) :
    act_waitpid_ready os s = Except.error ⟨1, "waitpid"⟩ := by
  simp only [act_waitpid_ready]
  rw [if_pos h]

theorem act5_ok_reaps (os : OS5) (s s1 : S5) (hrz : 0 < s.ready_zombie)
    (h : act_waitpid_ready os s = Except.ok s1) :
    s.ready_zombie ∈ s.zombies ∧ s1.zombies = s.zombies.erase s.ready_zombie := by
  cases hwe : os.waitErr s.waitCount with
  | some e =>
    rw [act_waitpid_ready_waitErr os s e hrz hwe] at h
    exact Except.noConfusion h
  | none =>
    by_cases hmem : s.ready_zombie ∈ s.zombies
    · simp only [act_waitpid_ready, waitpid5, hwe, if_pos hmem] at h
      rw [if_neg (by simp)] at h
      cases h
      exact ⟨hmem, rfl⟩
    · rw [act_waitpid_ready_noChild os s hrz hwe hmem] at h
      exact Except.noConfusion h

theorem td5_tolerance_iff (os : OS5) (s : S5) (e : Nat) (hrz : 0 < s.ready_zombie)
    (hwe : os.waitErr s.waitCount = some e) :
    (teardown_wait_ready os s =
      Except.ok { s with waitCount := s.waitCount + 1, ready_zombie := -1 } ↔
      e = ECHILD) := by
  constructor
  · intro hok
    by_contra hne
    rw [teardown_wait_ready_otherErr os s e hrz hwe hne] at hok
    exact Except.noConfusion hok
  · intro he
    subst he
    exact teardown_wait_ready_echild_ok os s hrz hwe

/-- C8: in the pre-terminated-wait scenario, setup forks a child, logs the
fixed 2 ms sleep and records the child's pid in `ready_zombie`; the action
reaps exactly the recorded pid and is fatal (status 1) whenever `waitpid`
does not return that pid; the teardown tolerates exactly the `ECHILD`
failure of its defensive reap, any other `waitpid` failure being fatal — and
this is the only non-fatal condition among the program's monitored OS calls:
every other modeled primitive failure terminates with status 1. -/
theorem C8_pre_terminated_wait :
    (∀ (os : OS5) (s s1 : S5), setup_waitpid_ready os s = Except.ok s1 →
      s1.ready_zombie = s.nextPid ∧ s1.zombies = s.zombies ++ [s.nextPid] ∧
      s1.sleeps_ns = s.sleeps_ns ++ [2 * 1000 * 1000]) ∧
    (∀ (os : OS5) (s : S5), (waitpid5 os s.ready_zombie s).1 ≠ s.ready_zombie →
      act_waitpid_ready os s = Except.error ⟨1, "waitpid"⟩) ∧
    (∀ (os : OS5) (s s1 : S5), 0 < s.ready_zombie →
      act_waitpid_ready os s = Except.ok s1 →
      s.ready_zombie ∈ s.zombies ∧ s1.zombies = s.zombies.erase s.ready_zombie) ∧
    (∀ (os : OS5) (s : S5) (e : Nat), 0 < s.ready_zombie →
      os.waitErr s.waitCount = some e →
      (teardown_wait_ready os s =
        Except.ok { s with waitCount := s.waitCount + 1, ready_zombie := -1 } ↔
        e = ECHILD)) ∧
    (∀ (gettime : Nat → Option Nat) (k : Nat), gettime k = none →
      nsecs_now gettime k = Except.error ⟨1, "clock_gettime"⟩) ∧
    (∀ (os : OS4) (s : S4), os.forkFail s.forkCount = true →
      act_fork_parent_return os s = Except.error ⟨1, "fork"⟩) ∧
    (∀ (s : S4), 0 < s.last_child → s.last_child ∉ s.zombies →
      teardown_wait_for_last_child s = Except.error ⟨1, "waitpid"⟩) ∧
    (∀ (os : OS5) (s : S5), os.forkFail s.forkCount = true →
      setup_waitpid_ready os s = Except.error ⟨1, "fork"⟩) ∧
    (∀ (os : OS5) (s : S5) (e : Nat), 0 < s.ready_zombie →
      os.waitErr s.waitCount = some e →
      act_waitpid_ready os s = Except.error ⟨1, "waitpid"⟩) ∧
    (∀ (os : OS6) (s : S6), os.forkFail s.forkCount = true →
      act_fork_child_exit_wait os s = Except.error ⟨1, "fork"⟩) ∧
    (∀ (os : OS6) (s : S6), os.forkFail s.forkCount = false →
      os.waitFail s.waitCount = true →
      act_fork_child_exit_wait os s = Except.error ⟨1, "waitpid"⟩) ∧
    (∀ (os : OS7) (s : S7), os.sysFail s.sysCount = true →
      act_system_true os s = Except.error ⟨1, "system"⟩) ∧
    (∀ (os : OS8) (s : S8), os.mkFail s.mkCount = true →
      act_mkdir_rmdir os s = Except.error ⟨1, "mkdtemp"⟩) ∧
    (∀ (os : OS8) (s : S8), os.mkFail s.mkCount = false →
      os.rmFail s.mkCount = true →
      act_mkdir_rmdir os s = Except.error ⟨1, "rmdir"⟩) :=
  ⟨setup5_ok_shape,
   act5_mismatch_fatal,
   act5_ok_reaps,
   td5_tolerance_iff,
   nsecs_now_fail,
   act_fork_parent_return_forkFail,
   teardown_wait_for_last_child_waitFail,
   setup_waitpid_ready_forkFail,
   act_waitpid_ready_waitErr,
   act_fork_child_exit_wait_forkFail,
   act_fork_child_exit_wait_waitFail,
   act_system_true_sysFail,
   act_mkdir_rmdir_mkFail,
   act_mkdir_rmdir_rmFail⟩

/-- C8 witness: the pre-terminated-wait theorem applied at concrete states —
a forced non-matching `waitpid` makes the action fatal, a forced `ECHILD`
in the teardown is tolerated with the register cleared, and a concrete setup
records the fresh child pid. -/
theorem C8_pre_terminated_wait_witness :
    act_waitpid_ready ⟨fun _ => false, fun _ => some 5⟩ ⟨3, 0, [3], 4, 1, 0, []⟩ =
      Except.error ⟨1, "waitpid"⟩ ∧
    teardown_wait_ready ⟨fun _ => false, fun _ => some ECHILD⟩ ⟨3, 0, [], 4, 1, 1, []⟩ =
      Except.ok ⟨-1, 0, [], 4, 1, 2, []⟩ ∧
    (⟨1, 0, [1], 2, 1, 0, [2 * 1000 * 1000]⟩ : S5).ready_zombie =
      (⟨-1, 0, [], 1, 0, 0, []⟩ : S5).nextPid ∧
    nsecs_now (fun _ => none) 3 = Except.error ⟨1, "clock_gettime"⟩ := by
  refine ⟨?_, ?_, ?_, ?_⟩
  · exact C8_pre_terminated_wait.2.1 ⟨fun _ => false, fun _ => some 5⟩
      ⟨3, 0, [3], 4, 1, 0, []⟩ (by decide)
  · exact (C8_pre_terminated_wait.2.2.2.1 ⟨fun _ => false, fun _ => some ECHILD⟩
      ⟨3, 0, [], 4, 1, 1, []⟩ ECHILD (by decide) rfl).mpr rfl
  · exact (C8_pre_terminated_wait.1 ⟨fun _ => false, fun _ => none⟩
      ⟨-1, 0, [], 1, 0, 0, []⟩ ⟨1, 0, [1], 2, 1, 0, [2 * 1000 * 1000]⟩ (by decide)).1
  · exact C8_pre_terminated_wait.2.2.2.2.1 (fun _ => none) 3 rfl

theorem pwo_forks_eq (os : FR_OS) : ∀ (n i : Nat),
    pwo_forks os n i = (List.range n).map
      (fun j => if os.forkFail (i + j) then (-1 : Int) else (i + j + 1 : Int)) := by
  intro n
  induction n with
  | zero => intro i; rfl
  | succ n ih =>
    intro i
    rw [pwo_forks, List.range_succ_eq_map, List.map_cons, List.map_map, ih (i + 1)]
    congr 1
    apply List.map_congr_left
    intro a _
    simp only [Function.comp_apply, Nat.succ_eq_add_one]
    have h1 : i + (a + 1) = i + 1 + a := by ring
    rw [h1]
    split
    · rfl
    · push_cast
      ring

theorem pwo_waited_eq (os : FR_OS) (count : Nat) :
    (((List.range count).map
        (fun j => if os.forkFail j then (-1 : Int) else (j + 1 : Int))).filter
      (fun p => 0 < p)) =
    ((List.range count).filter (fun i => os.forkFail i = false)).map
      (fun i => (i + 1 : Int)) := by
  induction count with
  | zero => rfl
  | succ n ih =>
    rw [List.range_succ]
    simp only [List.map_append, List.filter_append, ih]
    cases hf : os.forkFail n <;> simp [hf]

/-- C9 counterexample: with every `open` and `fork` failing, `writeoutput`
returns normally — no error report, no fatal termination, the wait silently
skipped — and `parallelwriteoutput` with all forks failing likewise returns
normally waiting for nobody, contradicting the claimed fatal-on-unrecoverable-
error semantics. -/
theorem C9_helper_fatal_counterexample :
    (writeoutput ⟨fun _ => true, fun _ => true, false⟩ "cmd" "out" "err").fatal =
      none ∧
    (writeoutput ⟨fun _ => true, fun _ => true, false⟩ "cmd" "out" "err").out_opened =
      false ∧
    (writeoutput ⟨fun _ => true, fun _ => true, false⟩ "cmd" "out" "err").forked =
      false ∧
    (writeoutput ⟨fun _ => true, fun _ => true, false⟩ "cmd" "out" "err").waited =
      false ∧
    (parallelwriteoutput ⟨fun _ => false, fun _ => true, false⟩ 3).fatal = none ∧
    (parallelwriteoutput ⟨fun _ => false, fun _ => true, false⟩ 3).waitedPids = [] := by
  refine ⟨rfl, by decide, by decide, by decide, rfl, by decide⟩

/-- C9 amended: the process-spawning helper is tolerant, not fatal, on
unrecoverable errors: neither operation ever terminates the calling process;
`writeoutput` on a failed fork silently skips the wait and returns, on a
failed open runs the child without that redirection, and a child whose exec
fails exits itself with status 127; `parallelwriteoutput` records `-1` for a
failed fork and waits exactly for the successfully forked children. -/
theorem C9_helper_error_tolerance :
    (∀ (os : FR_OS) (c o e : String), (writeoutput os c o e).fatal = none) ∧
    (∀ (os : FR_OS) (count : Nat), (parallelwriteoutput os count).fatal = none) ∧
    (∀ (os : FR_OS) (c o e : String), os.forkFail 0 = true →
      (writeoutput os c o e).forked = false ∧ (writeoutput os c o e).waited = false) ∧
    (∀ (os : FR_OS) (c o e : String), os.forkFail 0 = false →
      (writeoutput os c o e).waited = true ∧
      (writeoutput os c o e).child_exec_status =
        (if os.execFail then some 127 else none)) ∧
    (∀ (os : FR_OS) (c o e : String), os.openFail 0 = true →
      (writeoutput os c o e).out_opened = false ∧
      (writeoutput os c o e).child_redirected_out = false) ∧
    (∀ (os : FR_OS) (count : Nat),
      (parallelwriteoutput os count).pids = (List.range count).map
        (fun i => if os.forkFail i then (-1 : Int) else (i + 1 : Int)) ∧
      (parallelwriteoutput os count).waitedPids =
        ((List.range count).filter (fun i => os.forkFail i = false)).map
          (fun i => (i + 1 : Int))) := by
  refine ⟨?_, ?_, ?_, ?_, ?_, ?_⟩
  · intro os c o e
    cases hf : os.forkFail 0 <;> simp [writeoutput, hf]
  · intro os count
    rfl
  · intro os c o e hf
    constructor <;> simp [writeoutput, hf]
  · intro os c o e hf
    constructor <;> simp [writeoutput, hf]
  · intro os c o e ho
    cases hf : os.forkFail 0 <;> constructor <;> simp [writeoutput, hf, ho]
  · intro os count
    have hp : (parallelwriteoutput os count).pids = (List.range count).map
        (fun i => if os.forkFail i then (-1 : Int) else (i + 1 : Int)) := by
      show pwo_forks os count 0 = _
      rw [pwo_forks_eq os count 0]
      simp
    refine ⟨hp, ?_⟩
    show (pwo_forks os count 0).filter (fun p => 0 < p) = _
    have hp2 : pwo_forks os count 0 = (List.range count).map
        (fun i => if os.forkFail i then (-1 : Int) else (i + 1 : Int)) := hp
    rw [hp2, pwo_waited_eq]

/-- C9 witness: the tolerance theorem applied at a concrete oracle with a
failing fork and at a two-child parallel spawn with one failing fork. -/
theorem C9_helper_error_tolerance_witness :
    (writeoutput ⟨fun _ => false, fun _ => true, false⟩ "c" "o" "e").fatal = none ∧
    (writeoutput ⟨fun _ => false, fun _ => true, false⟩ "c" "o" "e").waited = false ∧
    (parallelwriteoutput ⟨fun _ => false, fun i => i == 0, false⟩ 2).waitedPids =
      ((List.range 2).filter
        (fun i => (⟨fun _ => false, fun i => i == 0, false⟩ : FR_OS).forkFail i =
          false)).map (fun i => (i + 1 : Int)) := by
  refine ⟨?_, ?_, ?_⟩
  · exact C9_helper_error_tolerance.1 ⟨fun _ => false, fun _ => true, false⟩ "c" "o" "e"
  · exact (C9_helper_error_tolerance.2.2.1
      ⟨fun _ => false, fun _ => true, false⟩ "c" "o" "e" rfl).2
  · exact (C9_helper_error_tolerance.2.2.2.2.2
      ⟨fun _ => false, fun i => i == 0, false⟩ 2).2

/-- C10: whenever `teardown_wait_for_last_child` returns (from any state the
program can put it in, i.e. `last_child` is −1 or positive), `last_child` is
−1 afterwards, and likewise `teardown_wait_ready` leaves `ready_zombie` at
−1 — so each new cycle starts with a cleared pid register and no teardown
can wait on a pid of an earlier cycle; `act_waitpid_ready` does not clear
`ready_zombie` on a successful reap, so the scenario-5 teardown always
re-issues `waitpid` on the already-reaped pid, that call fails with
`ECHILD`, and the teardown succeeds only through its `ECHILD` tolerance. -/
theorem C10_pid_register_clearing :
    (∀ (s s1 : S4), (s.last_child = -1 ∨ 0 < s.last_child) →
      teardown_wait_for_last_child s = Except.ok s1 → s1.last_child = -1) ∧
    (∀ (os : OS5) (s s1 : S5), (s.ready_zombie = -1 ∨ 0 < s.ready_zombie) →
      teardown_wait_ready os s = Except.ok s1 → s1.ready_zombie = -1) ∧
    (∀ (os : OS5) (s s1 : S5), act_waitpid_ready os s = Except.ok s1 →
      s1.ready_zombie = s.ready_zombie) ∧
    (∀ (os : OS5) (s : S5), 0 < s.ready_zombie → s.ready_zombie ∉ s.zombies →
      os.waitErr s.waitCount = none →
      (waitpid5 os s.ready_zombie s).1 = -1 ∧
      (waitpid5 os s.ready_zombie s).2.1 = ECHILD ∧
      teardown_wait_ready os s =
        Except.ok { s with waitCount := s.waitCount + 1, ready_zombie := -1 }) := by
  refine ⟨?_, ?_, ?_, ?_⟩
  · intro s s1 hd h
    rcases hd with hlc | hlc
    · simp only [teardown_wait_for_last_child, hlc] at h
      norm_num at h
      cases h
      exact hlc
    · simp only [teardown_wait_for_last_child, if_pos hlc] at h
      by_cases hm : s.last_child ∈ s.zombies
      · rw [if_pos hm] at h
        cases h
        rfl
      · rw [if_neg hm] at h
        exact Except.noConfusion h
  · intro os s s1 hd h
    rcases hd with hrz | hrz
    · simp only [teardown_wait_ready, hrz] at h
      norm_num at h
      cases h
      exact hrz
    · simp only [teardown_wait_ready, if_pos hrz] at h
      cases hwe : os.waitErr s.waitCount with
      | some e =>
        simp only [waitpid5, hwe] at h
        by_cases he : e = ECHILD
        · rw [if_neg (by intro hc; exact hc.2 he)] at h
          cases h
          rfl
        · rw [if_pos ⟨by norm_num, he⟩] at h
          exact Except.noConfusion h
      | none =>
        simp only [waitpid5, hwe] at h
        by_cases hm : s.ready_zombie ∈ s.zombies
        · rw [if_pos hm] at h
          rw [if_neg (by intro hc; omega)] at h
          cases h
          rfl
        · rw [if_neg hm] at h
          rw [if_neg (by intro hc; exact hc.2 rfl)] at h
          cases h
          rfl
  · intro os s s1 h
    cases hwe : os.waitErr s.waitCount with
    | some e =>
      simp only [act_waitpid_ready, waitpid5, hwe] at h
      split at h
      · exact Except.noConfusion h
      · cases h
        rfl
    | none =>
      by_cases hm : s.ready_zombie ∈ s.zombies
      · simp only [act_waitpid_ready, waitpid5, hwe, if_pos hm] at h
        split at h
        · exact Except.noConfusion h
        · cases h
          rfl
      · simp only [act_waitpid_ready, waitpid5, hwe, if_neg hm] at h
        split at h
        · exact Except.noConfusion h
        · cases h
          rfl
  · intro os s hrz hm hwe
    exact teardown_wait_ready_natural_echild os s hrz hwe hm

/-- C10 witness: the register-clearing theorem applied at concrete states —
a teardown reaping the last child, a successful action reap that leaves the
register set, and the subsequent defensive teardown reap hitting `ECHILD`. -/
theorem C10_pid_register_clearing_witness :
    teardown_wait_for_last_child ⟨5, 0, [5], 6, 1⟩ = Except.ok ⟨-1, 0, [], 6, 1⟩ ∧
    (⟨-1, 0, [], 6, 1⟩ : S4).last_child = -1 ∧
    act_waitpid_ready ⟨fun _ => false, fun _ => none⟩ ⟨3, 0, [3], 4, 1, 0, []⟩ =
      Except.ok ⟨3, 3, [], 4, 1, 1, []⟩ ∧
    (⟨3, 3, [], 4, 1, 1, []⟩ : S5).ready_zombie =
      (⟨3, 0, [3], 4, 1, 0, []⟩ : S5).ready_zombie ∧
    (waitpid5 ⟨fun _ => false, fun _ => none⟩ 3 ⟨3, 3, [], 4, 1, 1, []⟩).1 = -1 ∧
    (waitpid5 ⟨fun _ => false, fun _ => none⟩ 3 ⟨3, 3, [], 4, 1, 1, []⟩).2.1 = ECHILD ∧
    teardown_wait_ready ⟨fun _ => false, fun _ => none⟩ ⟨3, 3, [], 4, 1, 1, []⟩ =
      Except.ok ⟨-1, 3, [], 4, 1, 2, []⟩ := by
  have h4 := C10_pid_register_clearing.1 ⟨5, 0, [5], 6, 1⟩ ⟨-1, 0, [], 6, 1⟩
    (Or.inr (by decide)) (by decide)
  have h5 := C10_pid_register_clearing.2.2.1 ⟨fun _ => false, fun _ => none⟩
    ⟨3, 0, [3], 4, 1, 0, []⟩ ⟨3, 3, [], 4, 1, 1, []⟩ (by decide)
  have h6 := C10_pid_register_clearing.2.2.2 ⟨fun _ => false, fun _ => none⟩
    ⟨3, 3, [], 4, 1, 1, []⟩ (by decide) (by decide) rfl
  exact ⟨by decide, h4, by decide, h5, h6.1, h6.2.1, h6.2.2⟩

end GT
